import Mathlib

/-!
Verification development for the feedme repository: a shallow embedding of
the multi-source content-fetching core (common Item/Comment model, the
numeric-ID Hacker News adapter, the HTML-scraped Lobsters/Tildes/AP News
adapters, the Dev.to JSON adapter, and the two RSS/Atom feed engines),
together with theorems settling the specification claims.

Conventions of the embedding:
  - Network I/O is represented by oracle arguments (for example
    `f : Nat → Except String Item` stands for the per-identifier HTTP fetch,
    and page results are passed as `Except String (List Item)` values).
  - Go's `time.Parse` / `time.Now` and the relative-time helper are
    represented by a `TimeEnv` of oracle functions; every theorem quantifies
    over them, so the theorems hold for the real implementations.
  - HTML documents reaching a goquery-based parser are represented by
    records holding, per entry, the results of the CSS-selector queries the
    Go code performs (text of a selection, value of an attribute, ...).
  - Go machine integers are modelled as `Int`/`Nat`; none of the claims
    depends on 64-bit overflow.
-/

namespace Feedme

/-- The common normalized record every adapter produces
(Go struct `api.Item`, src/api/client.go lines 25-39).  The Go field
`Type` is called `typ` here because `Type` is reserved in Lean. -/
structure Item where
  ID : Nat := 0
  typ : String := ""
  By : String := ""
  Time : Int := 0
  Text : String := ""
  URL : String := ""
  Title : String := ""
  Score : Int := 0
  Kids : List Nat := []
  Parent : Nat := 0
  Descendants : Int := 0
  Deleted : Bool := false
  Dead : Bool := false
deriving Repr, DecidableEq, Inhabited

/-- The zero value `&api.Item{}` of the Go struct. -/
def zeroItem : Item := {}

/-- A comment with its nesting depth and children
(Go struct `api.Comment`, src/api/client.go lines 232-236). -/
inductive Comment : Type where
  | mk : Item → Nat → List Comment → Comment
deriving Inhabited

/-- The `Item` carried by a comment node. -/
def Comment.item : Comment → Item
  | .mk it _ _ => it

/-- The `Depth` field of a comment node. -/
def Comment.depth : Comment → Nat
  | .mk _ d _ => d

/-- The `Children` field of a comment node. -/
def Comment.children : Comment → List Comment
  | .mk _ _ cs => cs

/-- `depthLeB m c` holds when no node of the comment subtree `c` has a
`Depth` field exceeding `m`. -/
def depthLeB (m : Int) : Comment → Bool
  | .mk _ d children =>
    decide ((d : Int) ≤ m) && children.attach.all (fun c => depthLeB m c.1)
termination_by c => sizeOf c
decreasing_by
  simp_wf
  have h := List.sizeOf_lt_of_mem c.2
  omega

/-- Success projection of an `Except` fetch result. -/
def okOf {α : Type} : Except String α → Option α
  | .ok a => some a
  | .error _ => none

/-- Error projection of an `Except` fetch result. -/
def errOf {α : Type} : Except String α → Option String
  | .ok _ => none
  | .error e => some e

/-- Whether an `Except` result is an error. -/
def isError {α : Type} : Except String α → Bool
  | .ok _ => false
  | .error _ => true

/-- `hashShortID` (src/unnamed/part_004 lines 609-615): the deterministic
pseudo-numeric identifier derived from a provider short-identifier string.
Go iterates runes with their byte offset, `hash += int(c) * (i + 1) * 31`;
for the ASCII short identifiers of the providers the byte offset is the
character index used here. -/
def hashShortID (shortID : String) : Nat :=
  (shortID.toList.enum.foldl (fun hash p => hash + p.2.toNat * (p.1 + 1) * 31) 0)

/-! ### Domain extraction (`Item.Domain`, src/api/client.go lines 83-106)

The Go code works on the UTF-8 bytes of the URL; for the ASCII URLs of the
claims a `List Char` is byte-faithful. -/

/-- Scheme removal of `Item.Domain`: note the strict `len(url) > 8` /
`> 7` guards before each prefix strip, exactly as in the source. -/
def stripSchemeGo (s : List Char) : List Char :=
  if 8 < s.length ∧ s.take 8 = "https://".toList then s.drop 8
  else if 7 < s.length ∧ s.take 7 = "http://".toList then s.drop 7
  else s

/-- `www.` removal of `Item.Domain`, with the strict `len(url) > 4`
guard of the source. -/
def stripWwwGo (s : List Char) : List Char :=
  if 4 < s.length ∧ s.take 4 = "www.".toList then s.drop 4 else s

/-- Core of `Item.Domain`: the Go method body on the character list of the
URL. -/
def domainChars (s : List Char) : List Char :=
  if s = [] then []
  else (stripWwwGo (stripSchemeGo s)).takeWhile (fun c => c != '/')

/-- `Item.Domain`: extracts the domain from the `URL` field. -/
def Item.Domain (it : Item) : String :=
  String.mk (domainChars it.URL.toList)

/-- Scheme stripping as the specification words it: a leading `https://` or
`http://` is removed whenever present (no length guard). -/
def stripSchemeSpec (s : List Char) : List Char :=
  if s.take 8 = "https://".toList then s.drop 8
  else if s.take 7 = "http://".toList then s.drop 7
  else s

/-- `www.` stripping as the specification words it. -/
def stripWwwSpec (s : List Char) : List Char :=
  if s.take 4 = "www.".toList then s.drop 4 else s

/-- Domain extraction as the specification words it (claim C9): strip a
leading scheme, strip an optional `www.`, return up to the first `/`. -/
def specDomainChars (s : List Char) : List Char :=
  (stripWwwSpec (stripSchemeSpec s)).takeWhile (fun c => c != '/')

/-! ### The numeric-ID (Hacker News) adapter, src/api/client.go -/

/-- One critical section of a `Client.FetchItems` worker
(src/api/client.go lines 188-202): the worker at index `idx` fetches
`ids[idx]`, records the error if it is the first one seen, and writes a
non-nil item into its own slot. -/
def fetchStep (f : Nat → Except String Item) (ids : List Nat)
    (st : List (Option Item) × Option String) (idx : Nat) :
    List (Option Item) × Option String :=
  let r := f (ids.getD idx 0)
  let err :=
    match st.2 with
    | some e0 => some e0
    | none => errOf r
  let slots :=
    match r with
    | .ok it => st.1.set idx (some it)
    | .error _ => st.1
  (slots, err)

/-- `Client.FetchItems` (src/api/client.go lines 177-207).  The workers run
concurrently; `ord` is the order in which they reach the mutex-guarded
critical section (any permutation of the indices `0..n-1`).  The result is
the final slot list together with the first error recorded. -/
def hnFetchItemsGo (f : Nat → Except String Item) (ids : List Nat)
    (ord : List Nat) : List (Option Item) × Option String :=
  ord.foldl (fetchStep f ids) (List.replicate ids.length none, none)

/-- The cache-backed `FetchItems` shared verbatim by the pseudo-ID adapters
(LobstersClient, TildesClient, DevtoClient, RedditClient, APNewsClient and
both RSS clients): every slot is the cache lookup of the identifier at the
same input index, left empty when absent. -/
def cacheFetchItems (lookup : Nat → Option Item) (ids : List Nat) :
    List (Option Item) :=
  ids.map lookup

/-- `Client.fetchCommentsRecursive` (src/api/client.go lines 243-278).
`f` is the per-identifier fetch oracle; `fuel` bounds the recursion depth of
the embedding (the Go function recurses on the identifier graph, which is
finite in practice).  Inside the recursion `FetchItems` is modelled with the
workers completing in input order; the completion order only selects which
error message is recorded, never whether one is. -/
def fetchCommentsRecursive (f : Nat → Except String Item) :
    Nat → List Nat → Nat → Int → Except String (List Comment)
  | 0, _, _, _ => Except.ok []
  | fuel + 1, ids, depth, maxDepth =>
    if ids.isEmpty || (decide (0 < maxDepth) && decide (maxDepth ≤ (depth : Int))) then
      Except.ok []
    else
      let fetched := hnFetchItemsGo f ids (List.range ids.length)
      match fetched.2 with
      | some e => Except.error e
      | none =>
        Except.ok (fetched.1.foldl
          (fun acc oit =>
            match oit with
            | none => acc
            | some it =>
              if it.Deleted || it.Dead then acc
              else if it.Kids.isEmpty then acc ++ [Comment.mk it depth []]
              else
                match fetchCommentsRecursive f fuel it.Kids (depth + 1) maxDepth with
                | Except.error _ => acc
                | Except.ok children => acc ++ [Comment.mk it depth children])
          [])

/-- The loop body of `fetchCommentsRecursive` over one slot of the batch
result (src/api/client.go lines 254-275): nil/deleted/dead items are
skipped, a failed child fetch makes the loop `continue` (skipping the
node), and otherwise the node is appended with its children. -/
def processKids (f : Nat → Except String Item) (fuel : Nat) (depth : Nat)
    (maxDepth : Int) (acc : List Comment) (oit : Option Item) : List Comment :=
  match oit with
  | none => acc
  | some it =>
    if it.Deleted || it.Dead then acc
    else if it.Kids.isEmpty then acc ++ [Comment.mk it depth []]
    else
      match fetchCommentsRecursive f fuel it.Kids (depth + 1) maxDepth with
      | Except.error _ => acc
      | Except.ok children => acc ++ [Comment.mk it depth children]

/-- `Client.FetchCommentTree` (src/api/client.go lines 239-241). -/
def hnFetchCommentTree (f : Nat → Except String Item) (fuel : Nat)
    (it : Item) (maxDepth : Int) : Except String (List Comment) :=
  fetchCommentsRecursive f fuel it.Kids 0 maxDepth

/-! ### The scraped-adapter pseudo-ID cache (LobstersClient, part_004) -/

/-- The pseudo-ID cache of a scraping adapter: the Go map
`storyCache : map[int]*Item` always holds exactly the bindings
`i+1 ↦ stories[i]`, so the stories list in order is the whole state. -/
structure ScrapeState where
  storyCache : List Item
deriving Repr, DecidableEq, Inhabited

/-- Lookup in the pseudo-ID cache map: key `id` is bound exactly when
`1 ≤ id ≤ length`. -/
def snapshotLookup (stories : List Item) (id : Nat) : Option Item :=
  if 1 ≤ id then stories[id - 1]? else none

/-- `LobstersClient.FetchStoryIDs` (src/unnamed/part_004 lines 268-299).
`page1`/`page2` are the oracle results of `fetchStoriesPage` for the two
listing pages.  Page-one failure is a hard error; a page-two failure breaks
the loop; an empty total is an error; otherwise the cache is cleared and
rebuilt with 1-indexed pseudo-IDs.  `TildesClient.FetchStoryIDs`
(src/api/client.go lines 383-414) has the same body verbatim. -/
def lobstersFetchStoryIDs (page1 page2 : Except String (List Item))
    (_st : ScrapeState) : Except String (List Nat × ScrapeState) :=
  match page1 with
  | .error e => .error ("failed to fetch page 1: " ++ e)
  | .ok s1 =>
    let allStories :=
      match page2 with
      | .error _ => s1
      | .ok s2 => s1 ++ s2
    if allStories.isEmpty then .error "no stories found"
    else .ok ((List.range allStories.length).map (· + 1), ⟨allStories⟩)

/-- `LobstersClient.FetchItem` (src/unnamed/part_004 lines 469-479): cache
lookup, with a not-found error when the pseudo-ID is absent.  The same body
appears in TildesClient, DevtoClient, RedditClient, APNewsClient and both
RSS clients. -/
def lobstersFetchItem (st : ScrapeState) (id : Nat) : Except String Item :=
  match snapshotLookup st.storyCache id with
  | some it => .ok it
  | none => .error ("item " ++ toString id ++ " not found in cache")

/-! ### Time-parsing environment

Go's `time.Parse(layout, value)` and `time.Now()`, and the repository
helper `parseRelativeTime` (src/unnamed/part_004 lines 634-668, a
clock-dependent regex over relative phrases) are modelled as oracles; every
theorem quantifies over the environment. -/

/-- Oracle environment for clock-dependent helpers. -/
structure TimeEnv where
  /-- `time.Parse layout value` as a Unix timestamp on success. -/
  parse : String → String → Option Int
  /-- `parseRelativeTime` (part_004): relative phrase to Unix timestamp. -/
  relTime : String → Int
  /-- `time.Now().Unix()`. -/
  now : Int

/-- A concrete environment used for witnesses. -/
def envZero : TimeEnv := ⟨fun _ _ => none, fun _ => 0, 0⟩

/-! ### Character-level models of the Go string library

These stand for `strings.TrimSpace`, `strings.HasPrefix`, `strings.Join`,
`strings.Fields` and `strconv.Atoi`; they are written on `List Char` so
that concrete runs reduce inside the kernel. -/

/-- Go `strings.TrimSpace`. -/
def goTrim (s : String) : String :=
  String.mk (((s.toList.dropWhile Char.isWhitespace).reverse.dropWhile
    Char.isWhitespace).reverse)

/-- Go `strings.HasPrefix pre s` (argument order: the prefix first). -/
def goHasPre (pre s : String) : Bool :=
  s.toList.take pre.toList.length == pre.toList

/-- Go `strings.Join l sep`. -/
def joinSep (sep : String) : List String → String
  | [] => ""
  | t :: ts => ts.foldl (fun acc x => acc ++ sep ++ x) t

/-- Go `strings.Fields`: the maximal whitespace-free words of a string. -/
def fieldsChars (s : List Char) : List String :=
  let step := fun (st : List String × List Char) (c : Char) =>
    if c.isWhitespace then
      if st.2.isEmpty then st else (st.1 ++ [String.mk st.2], [])
    else (st.1, st.2 ++ [c])
  let r := s.foldl step ([], [])
  if r.2.isEmpty then r.1 else r.1 ++ [String.mk r.2]

/-- The numeric value of a nonempty all-digit character list. -/
def digitsVal (ds : List Char) : Option Nat :=
  if !ds.isEmpty && ds.all Char.isDigit then
    some (ds.foldl (fun n c => 10 * n + (c.toNat - 48)) 0)
  else none

/-- `parseTime` (src/unnamed/part_004 lines 618-631): first layout of the
candidate list that parses. -/
def parseTime (env : TimeEnv) (s : String) : Option Int :=
  ["2006-01-02 15:04:05 -0700", "2006-01-02T15:04:05Z",
   "2006-01-02T15:04:05-07:00", "2006-01-02T15:04:05Z07:00"].findSome?
    (fun fmt => env.parse fmt s)

/-- `strconv.Atoi` on a string: the whole string must be an optionally
signed decimal integer. -/
def goAtoi (s : String) : Option Int :=
  match s.toList with
  | '+' :: ds => (digitsVal ds).map (fun n => (n : Int))
  | '-' :: ds => (digitsVal ds).map (fun n => -(n : Int))
  | ds => (digitsVal ds).map (fun n => (n : Int))

/-- The first run of decimal digits in a string, as matched by the Go
regular expression pattern of one-or-more digits used for comment counts
and vote counts. -/
def firstDigitRun (s : String) : Option Nat :=
  let rest := s.toList.dropWhile (fun c => !c.isDigit)
  let digits := rest.takeWhile (fun c => c.isDigit)
  if digits.isEmpty then none
  else some (digits.foldl (fun n c => 10 * n + (c.toNat - 48)) 0)

/-! ### LobstersClient story parsing (src/unnamed/part_004 lines 374-466) -/

/-- The base URL constant of the Lobsters scraper. -/
def lobstersBaseURL : String := "https://lobste.rs"

/-- The results of the goquery selector queries `LobstersClient.parseStory`
performs on one `li.story` element. -/
structure LobstersStoryElem where
  /-- Text of the effective title link selection (`a.u-url`, falling back
  to `.link a`); `none` when both selections are empty. -/
  linkText : Option String := none
  /-- The `href` attribute of that link selection. -/
  linkHref : Option String := none
  /-- The `data-shortid` attribute of the element. -/
  shortID : Option String := none
  /-- Text of the `.voters a.upvoter` selection. -/
  scoreText : Option String := none
  /-- Text of the byline author link selection. -/
  authorText : Option String := none
  /-- The `.byline time` element: its `title` attribute and its text;
  `none` when the selection is empty. -/
  timeElem : Option (Option String × String) := none
  /-- Text of the `.comments_label` selection. -/
  commentsText : Option String := none
  /-- Texts of the `.tags a.tag` selections. -/
  tagTexts : List String := []
deriving Repr, DecidableEq, Inhabited

/-- Title and URL extraction of `parseStory` (part_004 lines 379-392):
title and href from the story link, relative URLs made absolute. -/
def lobstersSetLink (e : LobstersStoryElem) (it : Item) : Item :=
  match e.linkText with
  | none => it
  | some txt =>
    let url0 := e.linkHref.getD ""
    let url := if goHasPre "/" url0 then lobstersBaseURL ++ url0 else url0
    { it with Title := goTrim txt, URL := url }

/-- Short-identifier step of `parseStory` (part_004 lines 394-399): the
original short identifier goes into the `Type` field, its hash into `ID`. -/
def lobstersSetShort (e : LobstersStoryElem) (it : Item) : Item :=
  match e.shortID with
  | some sid => { it with typ := sid, ID := hashShortID sid }
  | none => it

/-- Score step of `parseStory` (part_004 lines 401-408). -/
def lobstersSetScore (e : LobstersStoryElem) (it : Item) : Item :=
  match e.scoreText with
  | some t =>
    match goAtoi (goTrim t) with
    | some n => { it with Score := n }
    | none => it
  | none => it

/-- Author step of `parseStory` (part_004 lines 410-417). -/
def lobstersSetAuthor (e : LobstersStoryElem) (it : Item) : Item :=
  match e.authorText with
  | some t => { it with By := goTrim t }
  | none => it

/-- Timestamp step of `parseStory` (part_004 lines 419-433): the `title`
attribute through `parseTime`, the text through `parseRelativeTime` as a
fallback when the time is still zero. -/
def lobstersSetTime (env : TimeEnv) (e : LobstersStoryElem) (it : Item) : Item :=
  match e.timeElem with
  | none => it
  | some (titleAttr, txt) =>
    let a :=
      match titleAttr with
      | some ts =>
        match parseTime env ts with
        | some t => { it with Time := t }
        | none => it
      | none => it
    if a.Time = 0 then { a with Time := env.relTime (goTrim txt) } else a

/-- Comment-count step of `parseStory` (part_004 lines 435-446). -/
def lobstersSetComments (e : LobstersStoryElem) (it : Item) : Item :=
  match e.commentsText with
  | some t =>
    match firstDigitRun (goTrim t) with
    | some n => { it with Descendants := (n : Int) }
    | none => it
  | none => it

/-- Tags step of `parseStory` (part_004 lines 448-458). -/
def lobstersSetTags (e : LobstersStoryElem) (it : Item) : Item :=
  let tags := (e.tagTexts.map goTrim).filter (fun t => t ≠ "")
  if tags.isEmpty then it
  else { it with Text := "[" ++ joinSep ", " tags ++ "]" }

/-- The item built by `LobstersClient.parseStory` before its final
empty-title guard: the field-extraction steps in source order. -/
def lobstersBuildItem (env : TimeEnv) (e : LobstersStoryElem) : Item :=
  lobstersSetTags e (lobstersSetComments e (lobstersSetTime env e
    (lobstersSetAuthor e (lobstersSetScore e (lobstersSetShort e
      (lobstersSetLink e { zeroItem with typ := "story" }))))))

/-- `LobstersClient.parseStory`: builds the item and discards it when no
title was resolved. -/
def lobstersParseStory (env : TimeEnv) (e : LobstersStoryElem) : Option Item :=
  let it := lobstersBuildItem env e
  if it.Title = "" then none else some it

/-- `LobstersClient.parseStories` (part_004 lines 360-371): every story
element in document order, keeping the parses that succeed. -/
def lobstersParseStories (env : TimeEnv) (es : List LobstersStoryElem) :
    List Item :=
  es.filterMap (lobstersParseStory env)

/-- The results of the goquery selector queries
`LobstersClient.parseComment` (part_004 lines 543-604) performs on one
`div.comment` element. -/
structure LobstersCommentElem where
  /-- Text of the byline author link selection. -/
  authorText : Option String := none
  /-- Inner HTML of the `.comment_text` selection. -/
  commentHTML : Option String := none
  /-- The `.byline time` element: its `title` attribute and its text. -/
  timeElem : Option (Option String × String) := none
  /-- The number of ancestor `ol.comments` elements of the block. -/
  ancestorOlCount : Nat := 0
  /-- Text of the `.voters a.upvoter` selection. -/
  scoreText : Option String := none
deriving Repr, DecidableEq, Inhabited

/-- `LobstersClient.parseComment`: author, body, time and score extraction;
the depth is the ancestor `ol.comments` count minus one; blocks with
neither author nor text are dropped.  The comment never has children here
(the listing is flat) and no depth limit is consulted. -/
def lobstersParseComment (env : TimeEnv) (e : LobstersCommentElem) :
    Option Comment :=
  let it0 : Item := { zeroItem with typ := "comment" }
  let it1 :=
    match e.authorText with
    | some t => { it0 with By := goTrim t }
    | none => it0
  let it2 :=
    match e.commentHTML with
    | some htmlStr => { it1 with Text := htmlStr }
    | none => it1
  let it3 :=
    match e.timeElem with
    | none => it2
    | some (titleAttr, txt) =>
      let a :=
        match titleAttr with
        | some ts =>
          match parseTime env ts with
          | some t => { it2 with Time := t }
          | none => it2
        | none => it2
      if a.Time = 0 then { a with Time := env.relTime (goTrim txt) } else a
  let depth0 := e.ancestorOlCount
  let depth := if depth0 > 0 then depth0 - 1 else depth0
  let it4 :=
    match e.scoreText with
    | some t =>
      match goAtoi (goTrim t) with
      | some n => { it3 with Score := n }
      | none => it3
    | none => it3
  if it4.By = "" ∧ it4.Text = "" then none
  else some (Comment.mk it4 depth [])

/-- `LobstersClient.parseComments` (part_004 lines 528-540). -/
def lobstersParseComments (env : TimeEnv) (es : List LobstersCommentElem) :
    List Comment :=
  es.filterMap (lobstersParseComment env)

/-- `LobstersClient.FetchCommentTree` (part_004 lines 495-525): requires a
short identifier in the `Type` field, fetches the thread page once (the
oracle `page` holds the parsed comment blocks, or the transport or parse
failure), and parses every block.  The `maxDepth` argument is accepted but
never consulted. -/
def lobstersFetchCommentTree (env : TimeEnv)
    (page : Except String (List LobstersCommentElem)) (it : Item)
    (_maxDepth : Int) : Except String (List Comment) :=
  if it.typ = "" || it.typ = "story" then .error "no story ID available"
  else
    match page with
    | .error e => .error ("failed to fetch story page: " ++ e)
    | .ok es => .ok (lobstersParseComments env es)

/-! ### TildesClient story parsing (src/api/client.go lines 481-618) -/

/-- The base URL constant of the Tildes scraper. -/
def tildesBaseURL : String := "https://tildes.net"

/-- The results of the goquery selector queries `TildesClient.parseStory`
performs on one `article.topic` element. -/
structure TildesStoryElem where
  /-- The `id` attribute of the article element. -/
  idAttr : Option String := none
  /-- The `href` attribute of the `a.topic-title` selection (queried inside
  the identifier branch). -/
  topicHref : Option String := none
  /-- Text of the `a.topic-title, h1.topic-title a` selection; `none` when
  the selection is empty. -/
  titleText : Option String := none
  /-- The `href` attribute of that title selection. -/
  titleHref : Option String := none
  /-- Text of the `.topic-voting-votes` selection. -/
  voteText : Option String := none
  /-- Text of the `.topic-info-comments a` selection. -/
  commentText : Option String := none
  /-- The `data-topic-posted-by` attribute. -/
  authorAttr : Option String := none
  /-- Text of the `.topic-info-source a` selection. -/
  authorText : Option String := none
  /-- The `time` element: its `datetime` attribute, its `title` attribute,
  and its text; `none` when the selection is empty. -/
  timeElem : Option (Option String × Option String × String) := none
  /-- Text of the `.topic-group a` selection. -/
  groupText : Option String := none
  /-- Texts of the `.topic-tags a.label-topic-tag` selections. -/
  tagTexts : List String := []
deriving Repr, DecidableEq, Inhabited

/-- The item built by `TildesClient.parseStory` before its final
empty-title guard. -/
def tildesBuildItem (env : TimeEnv) (e : TildesStoryElem) : Item :=
  let it0 : Item := { zeroItem with typ := "story" }
  let it1 :=
    match e.idAttr with
    | some idStr =>
      if goHasPre "topic-" idStr then
        let id36 := String.mk (idStr.toList.drop 6)
        let withTyp :=
          match e.topicHref with
          | some path => { it0 with typ := path }
          | none => { it0 with typ := id36 }
        { withTyp with ID := hashShortID id36 }
      else it0
    | none => it0
  let it2 :=
    match e.titleText with
    | some txt => { it1 with Title := goTrim txt }
    | none => it1
  let it3 :=
    match e.titleHref with
    | some href =>
      if goHasPre "http://" href || goHasPre "https://" href then
        { it2 with URL := href }
      else
        { it2 with URL := tildesBaseURL ++ href }
    | none => it2
  let it4 :=
    match e.voteText with
    | some t =>
      match goAtoi (goTrim t) with
      | some n => { it3 with Score := n }
      | none => it3
    | none => it3
  let it5 :=
    match e.commentText with
    | some t =>
      match firstDigitRun (goTrim t) with
      | some n => { it4 with Descendants := (n : Int) }
      | none => it4
    | none => it4
  let it6 :=
    match e.authorAttr with
    | some a => { it5 with By := a }
    | none =>
      match e.authorText with
      | some t => { it5 with By := goTrim t }
      | none => it5
  let it7 :=
    match e.timeElem with
    | none => it6
    | some (datetimeAttr, titleAttr, txt) =>
      let a :=
        match datetimeAttr with
        | some dt =>
          match env.parse "2006-01-02T15:04:05Z07:00" dt with
          | some t => { it6 with Time := t }
          | none => it6
        | none => it6
      let b :=
        if a.Time = 0 then
          match titleAttr with
          | some ts =>
            match parseTime env ts with
            | some t => { a with Time := t }
            | none => a
          | none => a
        else a
      if b.Time = 0 then { b with Time := env.relTime (goTrim txt) } else b
  let it8 :=
    match e.groupText with
    | some g =>
      if goTrim g ≠ "" then { it7 with Text := "[" ++ goTrim g ++ "]" } else it7
    | none => it7
  let tags := (e.tagTexts.map goTrim).filter (fun t => t ≠ "")
  if tags.isEmpty then it8
  else
    let base := if it8.Text ≠ "" then it8.Text ++ " " else it8.Text
    { it8 with Text := base ++ joinSep ", " tags }

/-- `TildesClient.parseStory`: builds the item and discards it when no
title was resolved. -/
def tildesParseStory (env : TimeEnv) (e : TildesStoryElem) : Option Item :=
  let it := tildesBuildItem env e
  if it.Title = "" then none else some it

/-- `TildesClient.parseStories` (src/api/client.go lines 481-493). -/
def tildesParseStories (env : TimeEnv) (es : List TildesStoryElem) :
    List Item :=
  es.filterMap (tildesParseStory env)

/-! ### APNewsClient story parsing (src/unnamed/part_003 lines 143-201) -/

/-- The base URL constant of the AP News scraper. -/
def apBaseURL : String := "https://apnews.com"

/-- One matched story-card link of the AP News listing page: its `href`
attribute, its text, and the text of its `span` descendant.  The input list
is the concatenation of the matches of the five candidate selectors, in
order. -/
structure APLinkElem where
  href : Option String := none
  text : String := ""
  spanText : String := ""
deriving Repr, DecidableEq, Inhabited

/-- The story literal `APNewsClient.parseStories` appends for one entry. -/
def apStory (nowT : Int) (title hURL : String) : Item :=
  { zeroItem with Title := title, URL := hURL, By := "AP", Time := nowT, typ := hURL }

/-- The loop body of `APNewsClient.parseStories`: the state is the set of
seen hrefs together with the stories collected so far.  Note that an entry
is marked seen before its title is inspected, exactly as in the source. -/
def apStep (nowT : Int) (st : List String × List Item) (e : APLinkElem) :
    List String × List Item :=
  match e.href with
  | none => st
  | some h0 =>
    let h := if goHasPre "/" h0 then apBaseURL ++ h0 else h0
    if st.1.contains h then st
    else
      let seen := h :: st.1
      let title0 := goTrim e.text
      let title := if title0 = "" then goTrim e.spanText else title0
      if title = "" then (seen, st.2)
      else (seen, st.2 ++ [apStory nowT title h])

/-- `APNewsClient.parseStories`: fold over all matched links, then cap the
listing at 50 stories. -/
def apParseStories (nowT : Int) (es : List APLinkElem) : List Item :=
  let stories := (es.foldl (apStep nowT) ([], [])).2
  if stories.length > 50 then stories.take 50 else stories

/-! ### Shared HTML-text helpers of the feed engines (src/api/rss.go) -/

/-- Model of Go `html.UnescapeString` on the five standard XML entities
(the entity table beyond these is never relevant to a claim; every theorem
either quantifies over the input or only uses the function behind a
non-emptiness guard). -/
def unescapeChars : List Char → List Char
  | [] => []
  | c :: rest =>
    if c = '&' then
      if rest.take 4 = "amp;".toList then '&' :: unescapeChars (rest.drop 4)
      else if rest.take 3 = "lt;".toList then '<' :: unescapeChars (rest.drop 3)
      else if rest.take 3 = "gt;".toList then '>' :: unescapeChars (rest.drop 3)
      else if rest.take 5 = "quot;".toList then '\x22' :: unescapeChars (rest.drop 5)
      else if rest.take 4 = "#39;".toList then '\x27' :: unescapeChars (rest.drop 4)
      else c :: unescapeChars rest
    else c :: unescapeChars rest
termination_by s => s.length
decreasing_by
  all_goals simp only [List.length_cons, List.length_drop]; omega

/-- Model of Go `html.UnescapeString` as the one-pass decoder above. -/
def htmlUnescape (s : String) : String :=
  String.mk (unescapeChars s.toList)

/-- `cleanText` (src/api/rss.go lines 612-618): unescape entities, then
trim whitespace. -/
def cleanText (s : String) : String :=
  goTrim (htmlUnescape s)

/-- `getAuthor` (src/api/rss.go lines 620-625). -/
def getAuthor (author creator : String) : String :=
  if author ≠ "" then author else creator

/-- `firstNonEmpty` (src/api/rss.go lines 640-647). -/
def firstNonEmpty (values : List String) : String :=
  match values.find? (fun v => v ≠ "") with
  | some v => v
  | none => ""

/-- The suffix after the first `>` character, when one exists. -/
def afterGt : List Char → Option (List Char)
  | [] => none
  | c :: rest => if c = '>' then some rest else afterGt rest

/-- `afterGt` only shortens its input. -/
theorem afterGt_length : ∀ (s t : List Char), afterGt s = some t → t.length < s.length := by
  intro s
  induction s with
  | nil => intro t h; simp [afterGt] at h
  | cons c rest ih =>
    intro t h
    rw [afterGt] at h
    split at h
    · cases h
      simp [List.length_cons]
    · have := ih t h
      simp only [List.length_cons]
      omega

/-- The tag-stripping regular expression of `cleanDescription`
(src/api/rss.go lines 307-324): every maximal segment from a `<` to the
next `>` is removed; a `<` with no later `>` matches nothing. -/
def stripTags (s : List Char) : List Char :=
  match s with
  | [] => []
  | c :: rest =>
    if c = '<' then
      match h : afterGt rest with
      | some rest2 => stripTags rest2
      | none => c :: rest
    else c :: stripTags rest
termination_by s.length
decreasing_by
  · simp only [List.length_cons]
    have := afterGt_length rest rest2 h
    omega
  · simp [List.length_cons]

/-- Go `strings.Fields` joined by single spaces: the whitespace cleanup
step of `cleanDescription`. -/
def fieldsJoin (s : String) : String :=
  joinSep " " ((fieldsChars s.toList).filter (fun t => t ≠ ""))

/-- `cleanDescription` (src/api/rss.go lines 307-324): strip tags,
unescape, normalize whitespace, and truncate to 300 characters with an
ellipsis. -/
def cleanDescription (desc : String) : String :=
  if desc = "" then ""
  else
    let text := fieldsJoin (htmlUnescape (String.mk (stripTags desc.toList)))
    if text.length > 300 then String.mk (text.toList.take 297) ++ "..." else text

/-! ### The generic single-URL RSS/Atom client (src/api/rss.go, second
half): decoded-feed structures and parsing -/

/-- A decoded RSS 2.0 `item` element (struct `rssItem`). -/
structure RssItem2 where
  title : String := ""
  link : String := ""
  description : String := ""
  author : String := ""
  creator : String := ""
  pubDate : String := ""
  guid : String := ""
  commentsURL : String := ""
deriving Repr, DecidableEq, Inhabited

/-- A decoded RSS 2.0 `channel` element (struct `rssChannel`). -/
structure RssChannel2 where
  title : String := ""
  description : String := ""
  items : List RssItem2 := []
deriving Repr, DecidableEq, Inhabited

/-- A decoded Atom `link` element (struct `atomLink`). -/
structure AtomLink2 where
  href : String := ""
  rel : String := ""
  typeAttr : String := ""
deriving Repr, DecidableEq, Inhabited

/-- A decoded Atom `entry` element (struct `atomEntry`). -/
structure AtomEntry2 where
  title : String := ""
  links : List AtomLink2 := []
  summary : String := ""
  content : String := ""
  authorName : String := ""
  published : String := ""
  updated : String := ""
  idStr : String := ""
deriving Repr, DecidableEq, Inhabited

/-- A decoded Atom `feed` element (struct `atomFeed`). -/
structure AtomFeed2 where
  title : String := ""
  entries : List AtomEntry2 := []
deriving Repr, DecidableEq, Inhabited

/-- `parseRSSTime` (src/api/rss.go lines 649-673). -/
def parseRSSTime (env : TimeEnv) (s : String) : Int :=
  if s = "" then env.now
  else
    match ["Mon, 02 Jan 2006 15:04:05 MST", "Mon, 02 Jan 2006 15:04:05 -0700",
           "02 Jan 06 15:04 MST", "02 Jan 06 15:04 -0700",
           "Mon, 2 Jan 2006 15:04:05 -0700", "Mon, 2 Jan 2006 15:04:05 MST",
           "2006-01-02T15:04:05Z", "2006-01-02T15:04:05-07:00",
           "2006-01-02T15:04:05Z07:00"].findSome? (fun fmt => env.parse fmt s) with
    | some t => t
    | none => env.now

/-- `parseAtomTime` (src/api/rss.go lines 675-699). -/
def parseAtomTime (env : TimeEnv) (published updated : String) : Int :=
  let s := if published = "" then updated else published
  if s = "" then env.now
  else
    match ["2006-01-02T15:04:05Z07:00", "2006-01-02T15:04:05.999999999Z07:00",
           "2006-01-02T15:04:05Z", "2006-01-02T15:04:05-07:00",
           "2006-01-02"].findSome? (fun fmt => env.parse fmt s) with
    | some t => t
    | none => env.now

/-- `getAtomLink` (src/api/rss.go lines 627-638). -/
def getAtomLink (links : List AtomLink2) : String :=
  match links.find? (fun l => l.rel = "alternate" || l.rel = "") with
  | some l => l.href
  | none =>
    match links with
    | l :: _ => l.href
    | [] => ""

/-- The item a generic-feed RSS entry converts to, before the empty-title
guard of `RSSClient.parseRSS`. -/
def rssItemToItem2 (env : TimeEnv) (ri : RssItem2) : Item :=
  { zeroItem with
      Title := cleanText ri.title, URL := ri.link,
      By := getAuthor ri.author ri.creator,
      Time := parseRSSTime env ri.pubDate,
      Text := cleanText ri.description, typ := "story" }

/-- `RSSClient.parseRSS` (src/api/rss.go lines 518-548), on the decoder
outcome: `none` models an `xml.Unmarshal` failure. -/
def parseRSS (env : TimeEnv) (dec : Option RssChannel2) :
    Except String (List Item × String) :=
  match dec with
  | none => .error "xml unmarshal failed"
  | some feed =>
    if feed.items.isEmpty then .error "no items in RSS feed"
    else
      .ok (feed.items.filterMap
             (fun ri =>
               let it := rssItemToItem2 env ri
               if it.Title = "" then none else some it),
           cleanText feed.title)

/-- The item a generic-feed Atom entry converts to, before the empty-title
guard of `RSSClient.parseAtom`. -/
def atomEntryToItem2 (env : TimeEnv) (entry : AtomEntry2) : Item :=
  { zeroItem with
      Title := cleanText entry.title, URL := getAtomLink entry.links,
      By := entry.authorName,
      Time := parseAtomTime env entry.published entry.updated,
      Text := cleanText (firstNonEmpty [entry.summary, entry.content]),
      typ := "story" }

/-- `RSSClient.parseAtom` (src/api/rss.go lines 578-608). -/
def parseAtom (env : TimeEnv) (dec : Option AtomFeed2) :
    Except String (List Item × String) :=
  match dec with
  | none => .error "xml unmarshal failed"
  | some feed =>
    if feed.entries.isEmpty then .error "no entries in Atom feed"
    else
      .ok (feed.entries.filterMap
             (fun entry =>
               let it := atomEntryToItem2 env entry
               if it.Title = "" then none else some it),
           cleanText feed.title)

/-- `RSSClient.parseFeed` (src/api/rss.go lines 478-493): RSS 2.0 first,
then Atom, both attempted on the same downloaded document (this single-URL
variant performs no refetch); an error only when neither path yields
items. -/
def parseFeed (env : TimeEnv) (decR : Option RssChannel2)
    (decA : Option AtomFeed2) : Except String (List Item × String) :=
  match parseRSS env decR with
  | .ok (items, title) =>
    if !items.isEmpty then .ok (items, title)
    else
      match parseAtom env decA with
      | .ok (items2, title2) =>
        if !items2.isEmpty then .ok (items2, title2)
        else .error "unable to parse feed as RSS or Atom"
      | .error _ => .error "unable to parse feed as RSS or Atom"
  | .error _ =>
    match parseAtom env decA with
    | .ok (items2, title2) =>
      if !items2.isEmpty then .ok (items2, title2)
      else .error "unable to parse feed as RSS or Atom"
    | .error _ => .error "unable to parse feed as RSS or Atom"

/-! ### The news-aggregator RSS engine (src/api/rss.go, first half): the
base client wrapped by the BBC / NPR / Google News adapters -/

/-- A decoded RSS item of the news engine (struct `RSSItem`), which also
carries a `source` element. -/
structure RssItemN where
  title : String := ""
  link : String := ""
  description : String := ""
  pubDate : String := ""
  guid : String := ""
  author : String := ""
  creator : String := ""
  src : String := ""
deriving Repr, DecidableEq, Inhabited

/-- A decoded Atom entry of the news engine (struct `AtomEntry`), whose
`link` is a single element rather than a list. -/
structure AtomEntryN where
  title : String := ""
  linkHref : String := ""
  published : String := ""
  updated : String := ""
  idStr : String := ""
  authorName : String := ""
  summary : String := ""
  content : String := ""
deriving Repr, DecidableEq, Inhabited

/-- `RSSClient.extractAuthor` (src/api/rss.go lines 239-250): author, then
Dublin-Core creator, then source, else blank. -/
def extractAuthor (r : RssItemN) : String :=
  if r.author ≠ "" then r.author
  else if r.creator ≠ "" then r.creator
  else if r.src ≠ "" then r.src
  else ""

/-- `RSSClient.parseRSSDate` (src/api/rss.go lines 253-280). -/
def parseRSSDate (env : TimeEnv) (dateStr : String) : Int :=
  if dateStr = "" then env.now
  else
    match ["Mon, 02 Jan 2006 15:04:05 -0700", "Mon, 02 Jan 2006 15:04:05 MST",
           "02 Jan 06 15:04 -0700", "02 Jan 06 15:04 MST",
           "2006-01-02T15:04:05Z07:00", "2006-01-02T15:04:05Z",
           "2006-01-02T15:04:05-07:00", "Mon, 2 Jan 2006 15:04:05 -0700",
           "Mon, 2 Jan 2006 15:04:05 MST", "2 Jan 2006 15:04:05 -0700",
           "2006-01-02 15:04:05"].findSome? (fun fmt => env.parse fmt (goTrim dateStr)) with
    | some t => t
    | none => env.now

/-- The item a news-engine RSS item converts to, before the guard of
`convertRSSItems`. -/
def rssItemToItemN (env : TimeEnv) (r : RssItemN) : Item :=
  { zeroItem with
      Title := htmlUnescape (goTrim r.title), URL := goTrim r.link,
      By := extractAuthor r, Time := parseRSSDate env r.pubDate,
      Text := cleanDescription r.description, typ := r.guid }

/-- `RSSClient.convertRSSItems` (src/api/rss.go lines 196-212): converts
each decoded item, keeping only those with both a title and a link. -/
def convertRSSItems (env : TimeEnv) (l : List RssItemN) : List Item :=
  l.filterMap
    (fun r =>
      let it := rssItemToItemN env r
      if it.Title ≠ "" ∧ it.URL ≠ "" then some it else none)

/-- The item a news-engine Atom entry converts to, before the guard of
`convertAtomEntries`. -/
def atomEntryToItemN (env : TimeEnv) (entry : AtomEntryN) : Item :=
  let pubTime := if entry.published = "" then entry.updated else entry.published
  { zeroItem with
      Title := htmlUnescape (goTrim entry.title), URL := goTrim entry.linkHref,
      By := entry.authorName, Time := parseRSSDate env pubTime,
      Text := cleanDescription entry.summary, typ := entry.idStr }

/-- `RSSClient.convertAtomEntries` (src/api/rss.go lines 215-236). -/
def convertAtomEntries (env : TimeEnv) (l : List AtomEntryN) : List Item :=
  l.filterMap
    (fun entry =>
      let it := atomEntryToItemN env entry
      if it.Title ≠ "" ∧ it.URL ≠ "" then some it else none)

/-- `RSSClient.fetchRSSFeed` (src/api/rss.go lines 153-193).  `resp1` is
the outcome of the first GET (transport errors and non-200 statuses folded
into the error case), `decR`/`decA` are the relaxed XML decoders, and
`resp2` is the outcome of the fresh refetch performed before the Atom
attempt.  RSS is attempted first; only when it yields no items is the feed
refetched and parsed as Atom; exhaustion of both paths is an error. -/
def fetchRSSFeed (env : TimeEnv) (decR : String → Option (List RssItemN))
    (decA : String → Option (List AtomEntryN))
    (resp1 resp2 : Except String String) : Except String (List Item) :=
  match resp1 with
  | .error e => .error ("failed to fetch RSS feed: " ++ e)
  | .ok body1 =>
    let rssItems :=
      match decR body1 with
      | some items => if items.isEmpty then none else some items
      | none => none
    match rssItems with
    | some items => .ok (convertRSSItems env items)
    | none =>
      match resp2 with
      | .error e => .error ("failed to refetch feed: " ++ e)
      | .ok body2 =>
        match decA body2 with
        | some entries =>
          if entries.isEmpty then .error "failed to parse feed as RSS or Atom"
          else .ok (convertAtomEntries env entries)
        | none => .error "failed to parse feed as RSS or Atom"

/-! ### The Dev.to adapter (src/api/devto.go) -/

/-- A decoded Dev.to comment (struct `devtoComment`): identifier code,
HTML body, creation time, author username, and nested children. -/
inductive DevtoComment : Type where
  | mk : (idCode : String) → (bodyHTML : String) → (createdAt : String) →
      (username : String) → (children : List DevtoComment) → DevtoComment
deriving Inhabited

/-- The children of a decoded Dev.to comment. -/
def DevtoComment.children : DevtoComment → List DevtoComment
  | .mk _ _ _ _ cs => cs

mutual

/-- `DevtoClient.parseComment` (src/api/devto.go lines 304-334): comments
of deleted accounts (empty username) are dropped; the node is emitted at
the given depth; children are expanded only while the depth limit allows
(`maxDepth <= 0` or `depth < maxDepth`). -/
def devtoParseComment (timeO : String → Option Int) (maxDepth : Int) :
    DevtoComment → Nat → Option Comment
  | .mk idCode bodyHTML createdAt username children, depth =>
    if username = "" then none
    else
      let ts := (timeO createdAt).getD 0
      let it : Item :=
        { zeroItem with
            ID := hashShortID idCode, typ := "comment", By := username,
            Text := bodyHTML, Time := ts }
      let kids :=
        if (decide (maxDepth ≤ 0) || decide ((depth : Int) < maxDepth))
            && !children.isEmpty then
          devtoParseComments timeO maxDepth children (depth + 1)
        else []
      some (Comment.mk it depth kids)

/-- `DevtoClient.parseComments` (src/api/devto.go lines 290-301): parses
each comment in order, keeping the non-nil results. -/
def devtoParseComments (timeO : String → Option Int) (maxDepth : Int) :
    List DevtoComment → Nat → List Comment
  | [], _ => []
  | dc :: rest, depth =>
    match devtoParseComment timeO maxDepth dc depth with
    | some c => c :: devtoParseComments timeO maxDepth rest depth
    | none => devtoParseComments timeO maxDepth rest depth

end

/-- A decoded Dev.to article of the listing endpoint (struct
`devtoArticle`); `publishedAtUnix` is the decoded `published_at` time as a
Unix timestamp. -/
structure DevtoArticle where
  id : Nat := 0
  title : String := ""
  description : String := ""
  url : String := ""
  path : String := ""
  publishedAtUnix : Int := 0
  reactions : Int := 0
  commentsCount : Int := 0
  tagList : List String := []
  username : String := ""
deriving Repr, DecidableEq, Inhabited

/-- `joinTags` (src/api/devto.go lines 207-216). -/
def joinTags : List String → String
  | [] => ""
  | t :: ts => ts.foldl (fun acc x => acc ++ ", " ++ x) t

/-- The conversion loop of `DevtoClient.fetchStories`
(src/api/devto.go lines 182-203): every decoded article becomes an item;
note there is no title filter here. -/
def devtoArticlesToItems (articles : List DevtoArticle) : List Item :=
  articles.map
    (fun a =>
      let it : Item :=
        { zeroItem with
            ID := a.id, typ := a.path, Title := a.title, By := a.username,
            Score := a.reactions, URL := a.url, Time := a.publishedAtUnix,
            Descendants := a.commentsCount }
      if !a.tagList.isEmpty then
        { it with Text := "[" ++ joinTags a.tagList ++ "]" }
      else it)

/-! ### Concrete fixtures used by counterexamples and witnesses -/

/-- A cached story used in cache-invalidation runs. -/
def itemA : Item := { zeroItem with Title := "story A", typ := "aaa1" }

/-- A second cached story. -/
def itemB : Item := { zeroItem with Title := "story B", typ := "bbb2" }

/-- The single story of the refreshed (second) snapshot. -/
def itemC : Item := { zeroItem with Title := "story C", typ := "ccc3" }

/-- An initial empty scrape state. -/
def st0 : ScrapeState := ⟨[]⟩

/-- The root comment of the child-failure run: its only child is
identifier 2, whose fetch fails. -/
def exItem1 : Item := { zeroItem with ID := 1, Title := "", Kids := [2] }

/-- The sibling comment of the child-failure run: no children, fetched
successfully. -/
def exItem3 : Item := { zeroItem with ID := 3, Kids := [] }

/-- Fetch oracle for the child-failure run: identifier 2 fails, 1 and 3
succeed. -/
def exOracle : Nat → Except String Item
  | 1 => .ok exItem1
  | 3 => .ok exItem3
  | _ => .error "fetch failed"

/-- A well-formed Lobsters listing element. -/
def goodElem : LobstersStoryElem :=
  { linkText := some "A good story", linkHref := some "https://example.com/a",
    shortID := some "abc123" }

/-- A Lobsters listing element whose entry has no resolvable title. -/
def titlelessElem : LobstersStoryElem :=
  { linkText := some "   ", linkHref := some "https://example.com/b",
    shortID := some "def456" }

/-- A well-formed decoded Dev.to article. -/
def goodArticle : DevtoArticle :=
  { id := 77, title := "Good story", url := "https://dev.to/x", username := "alice" }

/-- A decoded Dev.to article with an empty title. -/
def titlelessArticle : DevtoArticle :=
  { id := 78, title := "", url := "https://dev.to/y", username := "bob" }

/-- A nested Dev.to reply chain: `devtoChain n` is `n + 1` levels deep. -/
def devtoChain : Nat → DevtoComment
  | 0 => DevtoComment.mk "c0" "body" "" "user" []
  | n + 1 => DevtoComment.mk ("c" ++ toString (n + 1)) "body" "" "user" [devtoChain n]

/-- A time-parse oracle for witnesses. -/
def timeZero : String → Option Int := fun _ => none

/-- A concrete fetch oracle for the batch-fetch witnesses: identifier 10
resolves, identifier 20 fails. -/
def wOracle : Nat → Except String Item
  | 10 => .ok itemA
  | _ => .error "boom"

/-- A decoded Atom entry used by the feed-fallback witness. -/
def atomFixture : AtomEntryN :=
  { title := "Atom story", linkHref := "https://example.com/atom" }

/-- A Lobsters comment block nested six levels deep in the page markup. -/
def deepCommentElem : LobstersCommentElem :=
  { authorText := some "alice", ancestorOlCount := 6 }

/-- The item parsed from `deepCommentElem`. -/
def deepCommentItem : Item := { zeroItem with typ := "comment", By := "alice" }

/-- A cached Lobsters story carrying a short identifier, used to request a
comment tree. -/
def exStory : Item := { zeroItem with typ := "abc123", Title := "A story" }

/-! ## Helper lemmas -/

/-- Reading a slot after `List.set`: only the written slot changes, and
only when the index is in range. -/
theorem getD_set : ∀ (l : List (Option Item)) (j i : Nat) (a : Option Item),
    ((l.set j a).getD i none) = if i = j ∧ j < l.length then a else l.getD i none := by
  intro l
  induction l with
  | nil => intro j i a; simp
  | cons x xs ih =>
    intro j i a
    cases j with
    | zero =>
      cases i with
      | zero => simp
      | succ i2 => simp
    | succ j2 =>
      cases i with
      | zero => simp
      | succ i2 =>
        simp only [List.set, List.getD_cons_succ, ih, List.length_cons]
        by_cases hij : i2 = j2 <;> simp [hij]

/-- Two folds agree when their step functions agree pointwise. -/
theorem foldl_congr_fun {α β : Type} {g h : β → α → β}
    (H : ∀ b a, g b a = h b a) : ∀ (l : List α) (b : β), l.foldl g b = l.foldl h b := by
  intro l
  induction l with
  | nil => intro b; rfl
  | cons x xs ih => intro b; simp only [List.foldl_cons, H, ih]

/-- The worker fold preserves the length of the slot list. -/
theorem fetchStep_foldl_length (f : Nat → Except String Item) (ids : List Nat) :
    ∀ (ord : List Nat) (st : List (Option Item) × Option String),
      ((ord.foldl (fetchStep f ids) st).1).length = st.1.length := by
  intro ord
  induction ord with
  | nil => intro st; rfl
  | cons j rest ih =>
    intro st
    rw [List.foldl_cons, ih]
    unfold fetchStep
    cases f (ids.getD j 0) <;> simp

/-- The slot at index `i` after the worker fold: untouched unless index `i`
was scheduled, and holding the fetched item when its fetch succeeded. -/
theorem fetchStep_foldl_getD (f : Nat → Except String Item) (ids : List Nat) :
    ∀ (ord : List Nat) (st : List (Option Item) × Option String) (i : Nat),
      i < st.1.length →
      ((ord.foldl (fetchStep f ids) st).1).getD i none =
        if i ∈ ord then
          (match f (ids.getD i 0) with
           | .ok it => some it
           | .error _ => st.1.getD i none)
        else st.1.getD i none := by
  intro ord
  induction ord with
  | nil => intro st i _; simp
  | cons j rest ih =>
    intro st i hi
    have hlen : i < (fetchStep f ids st j).1.length := by
      unfold fetchStep
      cases f (ids.getD j 0) <;> simpa using hi
    have hslot : (fetchStep f ids st j).1.getD i none =
        if i = j then
          (match f (ids.getD j 0) with
           | .ok it => some it
           | .error _ => st.1.getD i none)
        else st.1.getD i none := by
      unfold fetchStep
      cases hf : f (ids.getD j 0) with
      | ok it =>
        simp only []
        rw [getD_set]
        by_cases hij : i = j
        · subst hij; simp [hi]
        · simp [hij]
      | error e =>
        simp only []
        by_cases hij : i = j <;> simp [hij]
    rw [List.foldl_cons, ih _ i hlen, hslot]
    by_cases hij : i = j
    · subst hij
      cases hf : f (ids.getD i 0) with
      | ok it => by_cases hmem : i ∈ rest <;> simp [hmem, hf]
      | error e => by_cases hmem : i ∈ rest <;> simp [hmem, hf]
    · cases hf : f (ids.getD i 0) with
      | ok it => by_cases hmem : i ∈ rest <;> simp [hmem, hf, hij, List.mem_cons]
      | error e => by_cases hmem : i ∈ rest <;> simp [hmem, hf, hij, List.mem_cons]

/-- The error recorded by the worker fold is the first error in completion
order. -/
theorem fetchStep_foldl_err (f : Nat → Except String Item) (ids : List Nat) :
    ∀ (ord : List Nat) (st : List (Option Item) × Option String),
      (ord.foldl (fetchStep f ids) st).2 =
        match st.2 with
        | some e => some e
        | none => ord.findSome? (fun j => errOf (f (ids.getD j 0))) := by
  intro ord
  induction ord with
  | nil =>
    intro st
    show st.2 = _
    cases hst : st.2 <;> simp
  | cons j rest ih =>
    intro st
    rw [List.foldl_cons, ih]
    cases hst : st.2 with
    | some e =>
      have h2 : (fetchStep f ids st j).2 = some e := by
        unfold fetchStep; rw [hst]
      rw [h2]
    | none =>
      cases hf : f (ids.getD j 0) with
      | ok it =>
        have h2 : (fetchStep f ids st j).2 = none := by
          unfold fetchStep; rw [hst, hf]; rfl
        have h3 : errOf (f (ids.getD j 0)) = none := by rw [hf]; rfl
        rw [h2, List.findSome?_cons, h3]
      | error e =>
        have h2 : (fetchStep f ids st j).2 = some e := by
          unfold fetchStep; rw [hst, hf]; rfl
        have h3 : errOf (f (ids.getD j 0)) = some e := by rw [hf]; rfl
        rw [h2, List.findSome?_cons, h3]

/-- Membership in the pseudo-ID list `[1, ..., n]`. -/
theorem mem_pseudoIds (id n : Nat) :
    id ∈ (List.range n).map (· + 1) ↔ 1 ≤ id ∧ id ≤ n := by
  simp only [List.mem_map, List.mem_range]
  constructor
  · rintro ⟨k, hk, rfl⟩; omega
  · intro h; exact ⟨id - 1, by omega, by omega⟩

/-- Successful `lobstersFetchStoryIDs` runs return exactly the 1-indexed
pseudo-IDs of the new cache, which is nonempty. -/
theorem lobstersFetchStoryIDs_ok_inv
    (p1 p2 : Except String (List Item)) (st : ScrapeState)
    (ids : List Nat) (st2 : ScrapeState)
    (h : lobstersFetchStoryIDs p1 p2 st = .ok (ids, st2)) :
    ids = (List.range st2.storyCache.length).map (· + 1) ∧
      st2.storyCache ≠ [] := by
  unfold lobstersFetchStoryIDs at h
  cases p1 with
  | error e => simp at h
  | ok s1 =>
    simp only at h
    split at h
    · simp at h
    · rename_i hne
      cases h
      exact ⟨rfl, by simpa [List.isEmpty_iff] using hne⟩

/-- `lobstersFetchItem` errors exactly on identifiers outside the cached
range. -/
theorem lobstersFetchItem_not_found (st : ScrapeState) (id : Nat)
    (h : ¬(1 ≤ id ∧ id ≤ st.storyCache.length)) :
    isError (lobstersFetchItem st id) = true := by
  unfold lobstersFetchItem snapshotLookup
  by_cases h1 : 1 ≤ id
  · have : st.storyCache.length ≤ id - 1 := by omega
    simp [h1, List.getElem?_eq_none this, isError]
  · simp [h1, isError]

/-- Reading any slot of the all-empty initial slot list gives `none`. -/
theorem getD_replicate_none : ∀ (n i : Nat),
    (List.replicate n (none : Option Item)).getD i none = none := by
  intro n
  induction n with
  | zero => intro i; simp
  | succ k ih =>
    intro i
    cases i with
    | zero => simp [List.replicate]
    | succ j => simp [List.replicate, ih]

/-! ## Claim C4 -/

/-- Claim C4 (confirmed): for every adapter, `FetchItems` returns a list
whose length equals the input length and whose slot at index `i` resolves
the identifier at input index `i` — for the numeric-ID adapter regardless
of the order in which the concurrent workers complete (unresolved
identifiers leave their slot empty without shifting others), and likewise
for the cache-backed adapters. -/
theorem fetchItems_preserves_input_order :
    (∀ (f : Nat → Except String Item) (ids ord : List Nat),
       List.Perm ord (List.range ids.length) →
       (hnFetchItemsGo f ids ord).1.length = ids.length ∧
         ∀ i, i < ids.length →
           (hnFetchItemsGo f ids ord).1.getD i none = okOf (f (ids.getD i 0)))
    ∧ (∀ (lookup : Nat → Option Item) (ids : List Nat),
         (cacheFetchItems lookup ids).length = ids.length ∧
           ∀ i, i < ids.length →
             (cacheFetchItems lookup ids).getD i none = lookup (ids.getD i 0)) := by
  constructor
  · intro f ids ord hperm
    constructor
    · rw [hnFetchItemsGo, fetchStep_foldl_length]
      simp
    · intro i hi
      have hmem : i ∈ ord := by
        rw [hperm.mem_iff, List.mem_range]
        exact hi
      rw [hnFetchItemsGo,
        fetchStep_foldl_getD f ids ord (List.replicate ids.length none, none) i
          (by simpa using hi)]
      rw [if_pos hmem]
      cases hf : f (ids.getD i 0) with
      | ok it => simp [okOf]
      | error e => simp [okOf, getD_replicate_none]
  · intro lookup ids
    constructor
    · simp [cacheFetchItems]
    · intro i hi
      simp [cacheFetchItems, List.getD, List.getElem?_map,
        List.getElem?_eq_getElem hi]

/-- Witness for C4: a concrete two-identifier batch whose workers complete
in reverse order still fills the slots in input order. -/
theorem fetchItems_preserves_input_order_witness :
    (hnFetchItemsGo wOracle [10, 20] [1, 0]).1.length = 2 ∧
      (hnFetchItemsGo wOracle [10, 20] [1, 0]).1.getD 0 none = okOf (wOracle 10) := by
  have h := fetchItems_preserves_input_order.1 wOracle [10, 20] [1, 0] (by decide)
  exact ⟨h.1, h.2 0 (by decide)⟩

/-! ## Claim C5 -/

/-- Claim C5 (confirmed): when individual fetches inside a numeric-ID
`FetchItems` batch fail, the call returns the first error encountered — the
error of the earliest failing fetch in worker completion order — while
every successfully fetched item is still present at its own slot. -/
theorem fetchItems_partial_failure :
    ∀ (f : Nat → Except String Item) (ids ord : List Nat),
      List.Perm ord (List.range ids.length) →
      (∀ i, i < ids.length → ∀ it, f (ids.getD i 0) = .ok it →
         (hnFetchItemsGo f ids ord).1.getD i none = some it)
      ∧ (hnFetchItemsGo f ids ord).2 =
          ord.findSome? (fun j => errOf (f (ids.getD j 0))) := by
  intro f ids ord hperm
  constructor
  · intro i hi it hit
    have hmem : i ∈ ord := by
      rw [hperm.mem_iff, List.mem_range]
      exact hi
    rw [hnFetchItemsGo,
      fetchStep_foldl_getD f ids ord (List.replicate ids.length none, none) i
        (by simpa using hi)]
    rw [if_pos hmem, hit]
  · rw [hnFetchItemsGo, fetchStep_foldl_err]

/-- Witness for C5: identifier 20 fails, its error is returned, and the
item of identifier 10 is still present at slot 0. -/
theorem fetchItems_partial_failure_witness :
    (hnFetchItemsGo wOracle [10, 20] [1, 0]).2 = some "boom" ∧
      (hnFetchItemsGo wOracle [10, 20] [1, 0]).1.getD 0 none = some itemA := by
  have h := fetchItems_partial_failure wOracle [10, 20] [1, 0] (by decide)
  refine ⟨?_, h.1 0 (by decide) itemA rfl⟩
  rw [h.2]
  rfl

/-! ## Claim C9 -/

/-- Claim C9 counterexample: on the URL `https://` (nothing after the
scheme) the code returns `https:` because of the strict `len(url) > 8`
guard, whereas the claimed description (strip the scheme, then take up to
the first slash) yields the empty string. -/
theorem domain_scheme_only_counterexample :
    Item.Domain { zeroItem with URL := "https://" } = "https:" ∧
      specDomainChars ("https://".toList) = [] ∧
      domainChars ("https://".toList) ≠ specDomainChars ("https://".toList) := by
  exact ⟨rfl, rfl, by decide⟩

/-- Claim C9 (corrected): `Item.Domain` agrees with the claimed
strip-scheme / strip-www / take-to-slash description whenever the URL does
not consist of a scheme alone and the residue after scheme stripping is not
exactly `www.`; the three concrete examples of the claim hold as stated. -/
theorem domain_amended :
    (∀ s : List Char, s ≠ "https://".toList → s ≠ "http://".toList →
       stripSchemeSpec s ≠ "www.".toList → domainChars s = specDomainChars s)
    ∧ Item.Domain { zeroItem with URL := "https://www.example.com/a/b" } = "example.com"
    ∧ Item.Domain { zeroItem with URL := "https://example.com:8080/x" } = "example.com:8080"
    ∧ Item.Domain { zeroItem with URL := "" } = "" := by
  refine ⟨?_, rfl, rfl, rfl⟩
  intro s h1 h2 h3
  have hscheme : stripSchemeGo s = stripSchemeSpec s := by
    unfold stripSchemeGo stripSchemeSpec
    by_cases hc8 : s.take 8 = "https://".toList
    · have hlen : 8 ≤ s.length := by
        have hl := congrArg List.length hc8
        simp [List.length_take] at hl
        omega
      have hgt : 8 < s.length := by
        rcases Nat.lt_or_ge 8 s.length with hosc | hosc
        · exact hosc
        · exfalso
          apply h1
          have hall : s.take 8 = s := List.take_of_length_le hosc
          rw [← hall, hc8]
      rw [if_pos ⟨hgt, hc8⟩, if_pos hc8]
    · rw [if_neg (fun hh => hc8 hh.2), if_neg hc8]
      by_cases hc7 : s.take 7 = "http://".toList
      · have hlen : 7 ≤ s.length := by
          have hl := congrArg List.length hc7
          simp [List.length_take] at hl
          omega
        have hgt : 7 < s.length := by
          rcases Nat.lt_or_ge 7 s.length with hosc | hosc
          · exact hosc
          · exfalso
            apply h2
            have hall : s.take 7 = s := List.take_of_length_le hosc
            rw [← hall, hc7]
        rw [if_pos ⟨hgt, hc7⟩, if_pos hc7]
      · rw [if_neg (fun hh => hc7 hh.2), if_neg hc7]
  have hwww : stripWwwGo (stripSchemeSpec s) = stripWwwSpec (stripSchemeSpec s) := by
    unfold stripWwwGo stripWwwSpec
    by_cases hc4 : (stripSchemeSpec s).take 4 = "www.".toList
    · have hlen : 4 ≤ (stripSchemeSpec s).length := by
        have hl := congrArg List.length hc4
        simp [List.length_take] at hl
        omega
      have hgt : 4 < (stripSchemeSpec s).length := by
        rcases Nat.lt_or_ge 4 (stripSchemeSpec s).length with hosc | hosc
        · exact hosc
        · exfalso
          apply h3
          have hall : (stripSchemeSpec s).take 4 = stripSchemeSpec s :=
            List.take_of_length_le hosc
          rw [← hall, hc4]
      rw [if_pos ⟨hgt, hc4⟩, if_pos hc4]
    · rw [if_neg (fun hh => hc4 hh.2), if_neg hc4]
  by_cases hnil : s = []
  · subst hnil; rfl
  · unfold domainChars specDomainChars
    rw [if_neg hnil, hscheme, hwww]

/-- Witness for the C9 amended theorem at a concrete URL. -/
theorem domain_amended_witness :
    domainChars ("https://example.com/x".toList) =
      specDomainChars ("https://example.com/x".toList) :=
  domain_amended.1 ("https://example.com/x".toList) (by decide) (by decide)
    (by decide)

/-! ## Claim C1 -/

/-- Claim C1 counterexample: a first `FetchStoryIDs` snapshot returns
pseudo-IDs 1 and 2; a refresh returns pseudo-ID 1 only; identifier 1 —
returned by the older snapshot — does not fail on `FetchItem` afterwards
but silently resolves to the new snapshot's story. -/
theorem cache_invalidation_counterexample :
    lobstersFetchStoryIDs (.ok [itemA, itemB]) (.error "net") st0 =
        .ok ([1, 2], ⟨[itemA, itemB]⟩) ∧
      lobstersFetchStoryIDs (.ok [itemC]) (.error "net") ⟨[itemA, itemB]⟩ =
        .ok ([1], ⟨[itemC]⟩) ∧
      lobstersFetchItem ⟨[itemC]⟩ 1 = .ok itemC ∧
      itemC ≠ itemA := by
  exact ⟨rfl, rfl, rfl, by decide⟩

/-- Claim C1 (corrected): a `FetchStoryIDs` call fully replaces the cache
(the result never depends on the previous state), and afterwards
`FetchItem` fails with a not-found error for an identifier of the older
snapshot only when that identifier is absent from the newer snapshot's
pseudo-ID list; identifiers present in both snapshots resolve to the new
snapshot's items. -/
theorem cache_invalidation_amended :
    ∀ (p1 p2 q1 q2 : Except String (List Item)) (stPrev st1 st2 : ScrapeState)
      (ids1 ids2 : List Nat),
      lobstersFetchStoryIDs p1 p2 stPrev = .ok (ids1, st1) →
      lobstersFetchStoryIDs q1 q2 st1 = .ok (ids2, st2) →
      (∀ stOther : ScrapeState,
         lobstersFetchStoryIDs q1 q2 st1 = lobstersFetchStoryIDs q1 q2 stOther)
      ∧ ∀ id, id ∈ ids1 → id ∉ ids2 → isError (lobstersFetchItem st2 id) = true := by
  intro p1 p2 q1 q2 stPrev st1 st2 ids1 ids2 _h1 h2
  constructor
  · intro stOther; rfl
  · intro id _hid1 hid2
    obtain ⟨hids2, _⟩ := lobstersFetchStoryIDs_ok_inv q1 q2 st1 ids2 st2 h2
    apply lobstersFetchItem_not_found
    intro hcontra
    exact hid2 (by rw [hids2, mem_pseudoIds]; exact hcontra)

/-- Witness for the C1 amended theorem: after the concrete refresh,
identifier 2 (valid only under the older snapshot) fails with not-found. -/
theorem cache_invalidation_amended_witness :
    isError (lobstersFetchItem ⟨[itemC]⟩ 2) = true := by
  have h := cache_invalidation_amended (.ok [itemA, itemB]) (.error "net")
    (.ok [itemC]) (.error "net") st0 ⟨[itemA, itemB]⟩ ⟨[itemC]⟩ [1, 2] [1]
    rfl rfl
  exact h.2 2 (by decide) (by decide)

/-! ## Claim C8 -/

/-- Claim C8 counterexample: page one succeeds but parses zero stories and
page two fails; the call then errors (`no stories found`) instead of
returning the zero stories gathered so far without error, as the claim
states. -/
theorem paged_fetch_counterexample :
    lobstersFetchStoryIDs (.ok []) (.error "net") st0 = .error "no stories found" := by
  rfl

/-- Claim C8 (corrected): the scraped adapters fetch a fixed number of
listing pages sequentially; a page-one failure is a hard error, and a
page-two failure after page one succeeded stops early and returns the
stories gathered so far without error — provided at least one story was
gathered; when zero stories were gathered the call fails with an error. -/
theorem paged_fetch_amended :
    (∀ (e : String) (p2 : Except String (List Item)) (st : ScrapeState),
       isError (lobstersFetchStoryIDs (.error e) p2 st) = true)
    ∧ (∀ (s1 : List Item) (e2 : String) (st : ScrapeState), s1 ≠ [] →
         lobstersFetchStoryIDs (.ok s1) (.error e2) st =
           .ok ((List.range s1.length).map (· + 1), ⟨s1⟩))
    ∧ (∀ (s1 : List Item) (p2 : Except String (List Item)) (st : ScrapeState),
         (match p2 with | .error _ => s1 | .ok s2 => s1 ++ s2) = [] →
         lobstersFetchStoryIDs (.ok s1) p2 st = .error "no stories found") := by
  refine ⟨fun e p2 st => rfl, ?_, ?_⟩
  · intro s1 e2 st hne
    have hne2 : s1.isEmpty = false := by simpa [List.isEmpty_iff] using hne
    unfold lobstersFetchStoryIDs
    simp [hne2]
  · intro s1 p2 st hempty
    cases p2 with
    | error e =>
      simp only at hempty
      unfold lobstersFetchStoryIDs
      simp [hempty]
    | ok s2 =>
      simp only at hempty
      unfold lobstersFetchStoryIDs
      simp [hempty]

/-- Witness for the C8 amended theorem: one story on page one, page two
failing, yields pseudo-ID 1 and the singleton cache; and two successful
but empty pages yield the no-stories error. -/
theorem paged_fetch_amended_witness :
    lobstersFetchStoryIDs (.ok [itemA]) (.error "net") st0 =
        .ok ((List.range 1).map (· + 1), ⟨[itemA]⟩)
      ∧ lobstersFetchStoryIDs (.ok []) (.ok []) st0 = .error "no stories found" :=
  ⟨paged_fetch_amended.2.1 [itemA] "net" st0 (by decide),
   paged_fetch_amended.2.2 [] (.ok []) st0 rfl⟩

/-- The score step never changes the `ID` field. -/
theorem lobstersSetScore_ID (e : LobstersStoryElem) (it : Item) :
    (lobstersSetScore e it).ID = it.ID := by
  unfold lobstersSetScore
  cases e.scoreText with
  | none => rfl
  | some t =>
    show (match goAtoi (goTrim t) with
          | some n => { it with Score := n }
          | none => it).ID = it.ID
    cases goAtoi (goTrim t) <;> rfl

/-- The author step never changes the `ID` field. -/
theorem lobstersSetAuthor_ID (e : LobstersStoryElem) (it : Item) :
    (lobstersSetAuthor e it).ID = it.ID := by
  unfold lobstersSetAuthor
  cases e.authorText <;> rfl

/-- The timestamp step never changes the `ID` field. -/
theorem lobstersSetTime_ID (env : TimeEnv) (e : LobstersStoryElem) (it : Item) :
    (lobstersSetTime env e it).ID = it.ID := by
  unfold lobstersSetTime
  cases e.timeElem with
  | none => rfl
  | some p =>
    obtain ⟨ta, txt⟩ := p
    have haux : ∀ a : Item, a.ID = it.ID →
        (if a.Time = 0 then { a with Time := env.relTime (goTrim txt) } else a).ID
          = it.ID := by
      intro a ha
      split
      · exact ha
      · exact ha
    exact haux
      (match ta with
       | some ts =>
         match parseTime env ts with
         | some t => { it with Time := t }
         | none => it
       | none => it)
      (by
        cases ta with
        | none => rfl
        | some ts =>
          show (match parseTime env ts with
                | some t => { it with Time := t }
                | none => it).ID = it.ID
          cases parseTime env ts <;> rfl)

/-- The comment-count step never changes the `ID` field. -/
theorem lobstersSetComments_ID (e : LobstersStoryElem) (it : Item) :
    (lobstersSetComments e it).ID = it.ID := by
  unfold lobstersSetComments
  cases e.commentsText with
  | none => rfl
  | some t =>
    show (match firstDigitRun (goTrim t) with
          | some n => { it with Descendants := (n : Int) }
          | none => it).ID = it.ID
    cases firstDigitRun (goTrim t) <;> rfl

/-- The tags step never changes the `ID` field. -/
theorem lobstersSetTags_ID (e : LobstersStoryElem) (it : Item) :
    (lobstersSetTags e it).ID = it.ID := by
  have haux : ∀ tags : List String,
      (if tags.isEmpty then it
       else { it with Text := "[" ++ joinSep ", " tags ++ "]" }).ID = it.ID := by
    intro tags
    split <;> rfl
  exact haux _

/-- When a short identifier is present, the short-identifier step stores
its hash in the `ID` field. -/
theorem lobstersSetShort_ID (e : LobstersStoryElem) (it : Item) (sid : String)
    (h : e.shortID = some sid) :
    (lobstersSetShort e it).ID = hashShortID sid := by
  unfold lobstersSetShort
  rw [h]

/-! ## Claim C10 -/

/-- Claim C10 (confirmed): for the scraped adapters the identifier space of
`FetchItem` is purely positional — after a successful `FetchStoryIDs`
returning identifiers `1..N`, `FetchItem k` returns exactly the `k`-th
parsed story for `1 ≤ k ≤ N` and every identifier outside the returned
list fails; the `Item.ID` field itself is the `hashShortID` hash of the
provider short identifier, not a key `FetchItem` accepts (looking an item
up by its own `ID` fails unless the hash happens to lie in `1..N`). -/
theorem pseudo_id_positional :
    (∀ (p1 p2 : Except String (List Item)) (st st2 : ScrapeState)
       (ids : List Nat),
       lobstersFetchStoryIDs p1 p2 st = .ok (ids, st2) →
       ids = (List.range st2.storyCache.length).map (· + 1)
       ∧ (∀ k, 1 ≤ k → k ≤ st2.storyCache.length →
            lobstersFetchItem st2 k = .ok (st2.storyCache.getD (k - 1) zeroItem))
       ∧ (∀ id, id ∉ ids → isError (lobstersFetchItem st2 id) = true)
       ∧ (∀ it, it ∈ st2.storyCache → ¬(1 ≤ it.ID ∧ it.ID ≤ st2.storyCache.length) →
            isError (lobstersFetchItem st2 it.ID) = true))
    ∧ (∀ (env : TimeEnv) (e : LobstersStoryElem) (it : Item) (sid : String),
         lobstersParseStory env e = some it → e.shortID = some sid →
         it.ID = hashShortID sid) := by
  constructor
  · intro p1 p2 st st2 ids h
    obtain ⟨hids, _hne⟩ := lobstersFetchStoryIDs_ok_inv p1 p2 st ids st2 h
    refine ⟨hids, ?_, ?_, ?_⟩
    · intro k hk1 hk2
      unfold lobstersFetchItem snapshotLookup
      have hlt : k - 1 < st2.storyCache.length := by omega
      rw [if_pos hk1, List.getElem?_eq_getElem hlt]
      simp [List.getD_eq_getElem?_getD, List.getElem?_eq_getElem hlt]
    · intro id hid
      apply lobstersFetchItem_not_found
      intro hcontra
      exact hid (by rw [hids, mem_pseudoIds]; exact hcontra)
    · intro it _hmem hout
      exact lobstersFetchItem_not_found st2 it.ID hout
  · intro env e it sid hparse hsid
    have hparse2 : (if (lobstersBuildItem env e).Title = "" then none
        else some (lobstersBuildItem env e)) = some it := hparse
    split at hparse2
    · cases hparse2
    · cases hparse2
      show (lobstersBuildItem env e).ID = hashShortID sid
      unfold lobstersBuildItem
      rw [lobstersSetTags_ID, lobstersSetComments_ID, lobstersSetTime_ID,
        lobstersSetAuthor_ID, lobstersSetScore_ID,
        lobstersSetShort_ID e _ sid hsid]

/-- Witness for C10 at a concrete successful listing run: pseudo-ID 2
returns the second parsed story. -/
theorem pseudo_id_positional_witness :
    lobstersFetchItem ⟨[itemA, itemB]⟩ 2 =
      .ok ((ScrapeState.mk [itemA, itemB]).storyCache.getD 1 zeroItem) :=
  (pseudo_id_positional.1 (.ok [itemA, itemB]) (.error "net") st0
    ⟨[itemA, itemB]⟩ [1, 2] rfl).2.1 2 (by decide) (by decide)

/-! ## Claim C7 -/

/-- Claim C7 (confirmed): the feed engine's fetch path attempts RSS 2.0
first — when the RSS decode yields items the result is theirs and the
refetch is never consulted; when RSS yields zero items the feed is
re-fetched (a fresh request whose body may differ) and parsed as Atom, a
valid Atom document yielding the Atom-derived items rather than an error;
and an error arises only when both parse paths are exhausted (or a
transport failure occurs).  The single-URL variant's `parseFeed` applies
the same RSS-then-Atom fallback to one downloaded document: a document
failing RSS but valid as Atom yields the Atom-derived items, and only
exhaustion of both paths is an error. -/
theorem rss_atom_fallback :
    ∀ (env : TimeEnv) (decR : String → Option (List RssItemN))
      (decA : String → Option (List AtomEntryN)) (b1 b2 : String)
      (resp2 : Except String String),
      (∀ items, decR b1 = some items → items ≠ [] →
         fetchRSSFeed env decR decA (.ok b1) resp2 = .ok (convertRSSItems env items))
      ∧ ((decR b1 = none ∨ decR b1 = some []) →
          ∀ entries, decA b2 = some entries → entries ≠ [] →
            fetchRSSFeed env decR decA (.ok b1) (.ok b2) =
              .ok (convertAtomEntries env entries))
      ∧ ((decR b1 = none ∨ decR b1 = some []) → ∀ e2,
          fetchRSSFeed env decR decA (.ok b1) (.error e2) =
            .error ("failed to refetch feed: " ++ e2))
      ∧ ((decR b1 = none ∨ decR b1 = some []) →
          (decA b2 = none ∨ decA b2 = some []) →
          fetchRSSFeed env decR decA (.ok b1) (.ok b2) =
            .error "failed to parse feed as RSS or Atom")
      ∧ (∀ e1, isError (fetchRSSFeed env decR decA (.error e1) resp2) = true)
      ∧ (∀ (dR : Option RssChannel2) (dA : Option AtomFeed2)
           (items : List Item) (t : String),
           parseRSS env dR = .ok (items, t) → items ≠ [] →
           parseFeed env dR dA = .ok (items, t))
      ∧ (∀ (dR : Option RssChannel2) (dA : Option AtomFeed2)
           (items2 : List Item) (t2 : String),
           (isError (parseRSS env dR) = true ∨
             ∃ t0, parseRSS env dR = .ok ([], t0)) →
           parseAtom env dA = .ok (items2, t2) → items2 ≠ [] →
           parseFeed env dR dA = .ok (items2, t2))
      ∧ (∀ (dR : Option RssChannel2) (dA : Option AtomFeed2),
           (isError (parseRSS env dR) = true ∨
             ∃ t0, parseRSS env dR = .ok ([], t0)) →
           (isError (parseAtom env dA) = true ∨
             ∃ t1, parseAtom env dA = .ok ([], t1)) →
           parseFeed env dR dA = .error "unable to parse feed as RSS or Atom") := by
  intro env decR decA b1 b2 resp2
  have hbody : ∀ r2 : Except String String,
      fetchRSSFeed env decR decA (.ok b1) r2 =
        match (match decR b1 with
               | some items => if items.isEmpty then none else some items
               | none => none) with
        | some items => .ok (convertRSSItems env items)
        | none =>
          match r2 with
          | .error e => .error ("failed to refetch feed: " ++ e)
          | .ok body2 =>
            match decA body2 with
            | some entries =>
              if entries.isEmpty then .error "failed to parse feed as RSS or Atom"
              else .ok (convertAtomEntries env entries)
            | none => .error "failed to parse feed as RSS or Atom" := by
    intro r2
    rfl
  have hok : ∀ items, decR b1 = some items → items ≠ [] →
      ∀ r2 : Except String String,
        fetchRSSFeed env decR decA (.ok b1) r2 = .ok (convertRSSItems env items) := by
    intro items hdec hne r2
    have hne2 : items.isEmpty = false := by simpa [List.isEmpty_iff] using hne
    simp [hbody r2, hdec, hne2]
  have hzero : (decR b1 = none ∨ decR b1 = some []) →
      ∀ r2 : Except String String,
        fetchRSSFeed env decR decA (.ok b1) r2 =
          (match r2 with
           | .error e => .error ("failed to refetch feed: " ++ e)
           | .ok body2 =>
             match decA body2 with
             | some entries =>
               if entries.isEmpty then .error "failed to parse feed as RSS or Atom"
               else .ok (convertAtomEntries env entries)
             | none => .error "failed to parse feed as RSS or Atom") := by
    intro hz r2
    rcases hz with hz | hz
    · simp [hbody r2, hz]
    · simp [hbody r2, hz]
  refine ⟨fun items hdec hne => hok items hdec hne resp2, ?_, ?_, ?_, fun e1 => rfl,
    ?_, ?_, ?_⟩
  · intro hz entries hdecA hne
    have hne2 : entries.isEmpty = false := by simpa [List.isEmpty_iff] using hne
    rw [hzero hz (.ok b2)]
    simp [hdecA, hne2]
  · intro hz e2
    rw [hzero hz (.error e2)]
  · intro hz hza
    rw [hzero hz (.ok b2)]
    rcases hza with hza | hza
    · simp [hza]
    · simp [hza]
  · intro dR dA items t hrss hne
    have hne2 : items.isEmpty = false := by simpa [List.isEmpty_iff] using hne
    unfold parseFeed
    rw [hrss]
    simp [hne2]
  · intro dR dA items2 t2 hz hA hne
    have hne2 : items2.isEmpty = false := by simpa [List.isEmpty_iff] using hne
    unfold parseFeed
    rcases hz with herr | ⟨t0, hok0⟩
    · cases hpr : parseRSS env dR with
      | ok p => rw [hpr] at herr; simp [isError] at herr
      | error e => simp [hA, hne2]
    · rw [hok0]
      simp [hA, hne2]
  · intro dR dA hz hza
    unfold parseFeed
    rcases hz with herr | ⟨t0, hok0⟩
    · cases hpr : parseRSS env dR with
      | ok p => rw [hpr] at herr; simp [isError] at herr
      | error e =>
        rcases hza with haerr | ⟨t1, haok⟩
        · cases hpa : parseAtom env dA with
          | ok q => rw [hpa] at haerr; simp [isError] at haerr
          | error e2 => rfl
        · simp [haok]
    · rw [hok0]
      rcases hza with haerr | ⟨t1, haok⟩
      · cases hpa : parseAtom env dA with
        | ok q => rw [hpa] at haerr; simp [isError] at haerr
        | error e2 => simp [hpa]
      · simp [haok]

/-- Witness for C7: an RSS decoder yielding nothing and an Atom decoder
yielding one entry on the refetched body produce the Atom-derived items. -/
theorem rss_atom_fallback_witness :
    fetchRSSFeed envZero (fun _ => none) (fun _ => some [atomFixture])
        (.ok "body1") (.ok "body2") =
      .ok (convertAtomEntries envZero [atomFixture]) := by
  have h := rss_atom_fallback envZero (fun _ => none) (fun _ => some [atomFixture])
    "body1" "body2" (.ok "body2")
  exact h.2.1 (Or.inl rfl) [atomFixture] rfl (by decide)

/-! ## Claim C2 -/

/-- Claim C2 counterexample: the Dev.to listing conversion keeps a
title-less decoded article, so a decoded JSON listing with one well-formed
and one title-less entry yields two items, one of them with an empty
title — not exactly one item as the claim states. -/
theorem titleless_kept_counterexample :
    (devtoArticlesToItems [goodArticle, titlelessArticle]).length = 2 ∧
      (devtoArticlesToItems [goodArticle, titlelessArticle]).map Item.Title =
        ["Good story", ""] := by
  exact ⟨rfl, rfl⟩

/-- `lobstersParseStory` only returns items with a nonempty title. -/
theorem lobstersParseStory_title (env : TimeEnv) (e : LobstersStoryElem)
    (it : Item) (h : lobstersParseStory env e = some it) : it.Title ≠ "" := by
  have h2 : (if (lobstersBuildItem env e).Title = "" then none
      else some (lobstersBuildItem env e)) = some it := h
  split at h2
  · cases h2
  · rename_i hne
    cases h2
    exact hne

/-- `tildesParseStory` only returns items with a nonempty title. -/
theorem tildesParseStory_title (env : TimeEnv) (e : TildesStoryElem)
    (it : Item) (h : tildesParseStory env e = some it) : it.Title ≠ "" := by
  have h2 : (if (tildesBuildItem env e).Title = "" then none
      else some (tildesBuildItem env e)) = some it := h
  split at h2
  · cases h2
  · rename_i hne
    cases h2
    exact hne

/-- The AP News fold only accumulates items with a nonempty title. -/
theorem apStep_foldl_title (nowT : Int) :
    ∀ (es : List APLinkElem) (st : List String × List Item),
      (∀ it ∈ st.2, it.Title ≠ "") →
      ∀ it ∈ (es.foldl (apStep nowT) st).2, it.Title ≠ "" := by
  intro es
  induction es with
  | nil => intro st h; exact h
  | cons e rest ih =>
    intro st h
    rw [List.foldl_cons]
    apply ih
    cases he : e.href with
    | none =>
      have hstep : apStep nowT st e = st := by
        unfold apStep
        rw [he]
      rw [hstep]
      exact h
    | some h0 =>
      have haux : ∀ (hURL title : String), ∀ it2 ∈
          (if st.1.contains hURL then st
           else if title = "" then (hURL :: st.1, st.2)
           else (hURL :: st.1, st.2 ++ [apStory nowT title hURL])).2,
          it2.Title ≠ "" := by
        intro hURL title it2 hit2
        split at hit2
        · exact h it2 hit2
        · split at hit2
          · exact h it2 hit2
          · rename_i hne
            rcases List.mem_append.1 hit2 with hmem | hmem
            · exact h it2 hmem
            · rcases List.mem_singleton.1 hmem with rfl
              simpa [apStory] using hne
      intro it2 hit2
      apply haux (if goHasPre "/" h0 then apBaseURL ++ h0 else h0)
        (if goTrim e.text = "" then goTrim e.spanText else goTrim e.text) it2
      have hstep : apStep nowT st e =
          (if st.1.contains (if goHasPre "/" h0 then apBaseURL ++ h0 else h0) then st
           else if (if goTrim e.text = "" then goTrim e.spanText else goTrim e.text) = ""
           then ((if goHasPre "/" h0 then apBaseURL ++ h0 else h0) :: st.1, st.2)
           else ((if goHasPre "/" h0 then apBaseURL ++ h0 else h0) :: st.1, st.2 ++
             [apStory nowT
                (if goTrim e.text = "" then goTrim e.spanText else goTrim e.text)
                (if goHasPre "/" h0 then apBaseURL ++ h0 else h0)])) := by
        unfold apStep
        rw [he]
      rw [hstep] at hit2
      exact hit2

/-- `apParseStories` only returns items with a nonempty title. -/
theorem apParseStories_title (nowT : Int) (es : List APLinkElem) (it : Item)
    (h : it ∈ apParseStories nowT es) : it.Title ≠ "" := by
  have hstories : ∀ it2 ∈ ((es.foldl (apStep nowT) ([], [])).2), it2.Title ≠ "" :=
    apStep_foldl_title nowT es ([], []) (by simp)
  have h2 : it ∈ (if ((es.foldl (apStep nowT) ([], [])).2).length > 50
      then ((es.foldl (apStep nowT) ([], [])).2).take 50
      else (es.foldl (apStep nowT) ([], [])).2) := h
  split at h2
  · exact hstories it (List.mem_of_mem_take h2)
  · exact hstories it h2

/-- Claim C2 (corrected): for the HTML-scraped adapters (Lobsters, Tildes,
AP News) and both feed engines, no item with an empty title is ever present
in the parsed output, and the crafted one-good-one-titleless fixture yields
exactly one item; the invariant does not extend to the JSON-listing
adapters, as the Dev.to counterexample shows. -/
theorem titleless_dropped_amended :
    (∀ (env : TimeEnv) (es : List LobstersStoryElem) (it : Item),
       it ∈ lobstersParseStories env es → it.Title ≠ "")
    ∧ (∀ (env : TimeEnv) (es : List TildesStoryElem) (it : Item),
         it ∈ tildesParseStories env es → it.Title ≠ "")
    ∧ (∀ (nowT : Int) (es : List APLinkElem) (it : Item),
         it ∈ apParseStories nowT es → it.Title ≠ "")
    ∧ (∀ (env : TimeEnv) (l : List RssItemN) (it : Item),
         it ∈ convertRSSItems env l → it.Title ≠ "" ∧ it.URL ≠ "")
    ∧ (∀ (env : TimeEnv) (l : List AtomEntryN) (it : Item),
         it ∈ convertAtomEntries env l → it.Title ≠ "" ∧ it.URL ≠ "")
    ∧ (∀ (env : TimeEnv) (dec : Option RssChannel2) (items : List Item)
         (t : String) (it : Item), parseRSS env dec = .ok (items, t) →
         it ∈ items → it.Title ≠ "")
    ∧ (∀ (env : TimeEnv) (dec : Option AtomFeed2) (items : List Item)
         (t : String) (it : Item), parseAtom env dec = .ok (items, t) →
         it ∈ items → it.Title ≠ "")
    ∧ (lobstersParseStories envZero [goodElem, titlelessElem]).length = 1 := by
  refine ⟨?_, ?_, ?_, ?_, ?_, ?_, ?_, by decide⟩
  · intro env es it hmem
    rcases List.mem_filterMap.1 hmem with ⟨e, _, he⟩
    exact lobstersParseStory_title env e it he
  · intro env es it hmem
    rcases List.mem_filterMap.1 hmem with ⟨e, _, he⟩
    exact tildesParseStory_title env e it he
  · intro nowT es it hmem
    exact apParseStories_title nowT es it hmem
  · intro env l it hmem
    rcases List.mem_filterMap.1 hmem with ⟨r, _, hr⟩
    have hr2 : (if (rssItemToItemN env r).Title ≠ "" ∧ (rssItemToItemN env r).URL ≠ ""
        then some (rssItemToItemN env r) else none) = some it := hr
    split at hr2
    · rename_i hcond
      cases hr2
      exact hcond
    · cases hr2
  · intro env l it hmem
    rcases List.mem_filterMap.1 hmem with ⟨r, _, hr⟩
    have hr2 : (if (atomEntryToItemN env r).Title ≠ "" ∧ (atomEntryToItemN env r).URL ≠ ""
        then some (atomEntryToItemN env r) else none) = some it := hr
    split at hr2
    · rename_i hcond
      cases hr2
      exact hcond
    · cases hr2
  · intro env dec items t it hok hmem
    cases dec with
    | none => simp [parseRSS] at hok
    | some feed =>
      simp only [parseRSS] at hok
      split at hok
      · cases hok
      · cases hok
        rcases List.mem_filterMap.1 hmem with ⟨ri, _, hri⟩
        have hri2 : (if (rssItemToItem2 env ri).Title = "" then none
            else some (rssItemToItem2 env ri)) = some it := hri
        split at hri2
        · cases hri2
        · rename_i hne
          cases hri2
          exact hne
  · intro env dec items t it hok hmem
    cases dec with
    | none => simp [parseAtom] at hok
    | some feed =>
      simp only [parseAtom] at hok
      split at hok
      · cases hok
      · cases hok
        rcases List.mem_filterMap.1 hmem with ⟨entry, _, hentry⟩
        have hentry2 : (if (atomEntryToItem2 env entry).Title = "" then none
            else some (atomEntryToItem2 env entry)) = some it := hentry
        split at hentry2
        · cases hentry2
        · rename_i hne
          cases hentry2
          exact hne

/-- Witness for the C2 amended theorem: the item parsed from the
well-formed Lobsters fixture element has a nonempty title. -/
theorem titleless_dropped_amended_witness :
    ((lobstersParseStory envZero goodElem).getD zeroItem).Title ≠ "" := by
  apply titleless_dropped_amended.1 envZero [goodElem]
  decide

/-! ## Claim C3 -/

/-- Reduction of `processKids` on a non-nil slot. -/
theorem processKids_some (f : Nat → Except String Item) (fuel depth : Nat)
    (m : Int) (acc : List Comment) (it : Item) :
    processKids f fuel depth m acc (some it) =
      if it.Deleted || it.Dead then acc
      else if it.Kids.isEmpty then acc ++ [Comment.mk it depth []]
      else
        match fetchCommentsRecursive f fuel it.Kids (depth + 1) m with
        | .error _ => acc
        | .ok children => acc ++ [Comment.mk it depth children] := rfl

/-- One-step unfolding of `fetchCommentsRecursive` with positive fuel,
its loop body expressed through `processKids`. -/
theorem fetchCommentsRecursive_succ (f : Nat → Except String Item)
    (fuel : Nat) (ids : List Nat) (depth : Nat) (m : Int) :
    fetchCommentsRecursive f (fuel + 1) ids depth m =
      if ids.isEmpty || (decide (0 < m) && decide (m ≤ (depth : Int))) then
        Except.ok []
      else
        match (hnFetchItemsGo f ids (List.range ids.length)).2 with
        | some e => Except.error e
        | none =>
          Except.ok ((hnFetchItemsGo f ids (List.range ids.length)).1.foldl
            (processKids f fuel depth m) []) := rfl

/-- Errors of `fetchCommentsRecursive` come only from its own top-level
batch fetch: child-level failures are swallowed. -/
theorem fetchCommentsRecursive_error_source (f : Nat → Except String Item) :
    ∀ (fuel : Nat) (ids : List Nat) (depth : Nat) (m : Int),
      isError (fetchCommentsRecursive f fuel ids depth m) = true →
      (hnFetchItemsGo f ids (List.range ids.length)).2 ≠ none := by
  intro fuel ids depth m h
  cases fuel with
  | zero => simp [fetchCommentsRecursive, isError] at h
  | succ fuel =>
    rw [fetchCommentsRecursive_succ] at h
    split at h
    · simp [isError] at h
    · cases hsnd : (hnFetchItemsGo f ids (List.range ids.length)).2 with
      | none => rw [hsnd] at h; simp [isError] at h
      | some e => simp [hsnd]

/-- Claim C3 counterexample: in a run where the root has comments 1 and 3
and comment 1's only child (identifier 2) fails to fetch, the returned
tree contains only comment 3 — comment 1 is dropped entirely rather than
returned with no children (it is not suppressed by its flags). -/
theorem child_failure_counterexample :
    fetchCommentsRecursive exOracle 3 [1, 3] 0 0 =
        .ok [Comment.mk exItem3 0 []] ∧
      exItem1.Deleted = false ∧ exItem1.Dead = false ∧
      Comment.mk exItem1 0 [] ∉ [Comment.mk exItem3 0 []] := by
  refine ⟨rfl, rfl, rfl, ?_⟩
  intro hmem
  have heq := List.mem_singleton.1 hmem
  injection heq with h1 h2 h3
  exact absurd h1 (by decide)

/-- Claim C3 (corrected): in the numeric-ID adapter's recursive comment
assembly, when fetching a node's children fails the node is dropped from
the returned list (along with its subtree) rather than returned with no
children; the failure never aborts the whole tree — siblings are still
returned, the branch error is swallowed, and the call itself errors only
when its own top-level batch fetch fails. -/
theorem child_failure_drops_node :
    (∀ (f : Nat → Except String Item) (fuel : Nat) (ids : List Nat)
       (depth : Nat) (m : Int),
       isError (fetchCommentsRecursive f fuel ids depth m) = true →
       (hnFetchItemsGo f ids (List.range ids.length)).2 ≠ none)
    ∧ (∀ (f : Nat → Except String Item) (fuel depth : Nat) (m : Int)
         (acc : List Comment) (it : Item),
         (it.Deleted || it.Dead) = false → it.Kids.isEmpty = false →
         isError (fetchCommentsRecursive f fuel it.Kids (depth + 1) m) = true →
         processKids f fuel depth m acc (some it) = acc)
    ∧ (∀ (f : Nat → Except String Item) (fuel depth : Nat) (m : Int)
         (acc : List Comment) (it : Item) (children : List Comment),
         (it.Deleted || it.Dead) = false → it.Kids.isEmpty = false →
         fetchCommentsRecursive f fuel it.Kids (depth + 1) m = .ok children →
         processKids f fuel depth m acc (some it) =
           acc ++ [Comment.mk it depth children]) := by
  refine ⟨fetchCommentsRecursive_error_source, ?_, ?_⟩
  · intro f fuel depth m acc it hflag hkids herr
    rw [processKids_some, hflag, hkids]
    simp only [Bool.false_eq_true, if_false]
    cases hrec : fetchCommentsRecursive f fuel it.Kids (depth + 1) m with
    | error e => rfl
    | ok children => rw [hrec] at herr; simp [isError] at herr
  · intro f fuel depth m acc it children hflag hkids hrec
    rw [processKids_some, hflag, hkids, hrec]
    simp

/-- Witness for the C3 amended theorem: the concrete failing-child node is
dropped by the loop body. -/
theorem child_failure_drops_node_witness :
    processKids exOracle 2 0 0 [] (some exItem1) = [] :=
  child_failure_drops_node.2.1 exOracle 2 0 0 [] exItem1 rfl rfl rfl

/-! ## Claim C6 -/

/-- Unfolding of the depth-bound predicate on a node. -/
theorem depthLeB_mk (m : Int) (it : Item) (d : Nat) (cs : List Comment) :
    depthLeB m (Comment.mk it d cs) = true ↔
      ((d : Int) ≤ m ∧ ∀ c ∈ cs, depthLeB m c = true) := by
  rw [depthLeB]
  simp only [Bool.and_eq_true, decide_eq_true_eq, List.all_eq_true,
    List.mem_attach, true_implies, Subtype.forall]

/-- Every comment produced by the loop of `fetchCommentsRecursive` is
either carried over from the accumulator or a node at the current depth
whose children, when nonempty, come from the recursive call. -/
theorem processKids_mem (f : Nat → Except String Item) (fuel depth : Nat)
    (m : Int) :
    ∀ (slots : List (Option Item)) (acc : List Comment) (c : Comment),
      c ∈ slots.foldl (processKids f fuel depth m) acc →
      c ∈ acc ∨ ∃ it children, c = Comment.mk it depth children ∧
        (children = [] ∨
          fetchCommentsRecursive f fuel it.Kids (depth + 1) m = .ok children) := by
  intro slots
  induction slots with
  | nil => intro acc c h; exact Or.inl h
  | cons oit rest ih =>
    intro acc c h
    rw [List.foldl_cons] at h
    rcases ih _ c h with hacc | hex
    · cases oit with
      | none => exact Or.inl hacc
      | some it =>
        rw [processKids_some] at hacc
        split at hacc
        · exact Or.inl hacc
        · split at hacc
          · rcases List.mem_append.1 hacc with h1 | h1
            · exact Or.inl h1
            · rcases List.mem_singleton.1 h1 with rfl
              exact Or.inr ⟨it, [], rfl, Or.inl rfl⟩
          · cases hrec : fetchCommentsRecursive f fuel it.Kids (depth + 1) m with
            | error e => rw [hrec] at hacc; exact Or.inl hacc
            | ok children =>
              rw [hrec] at hacc
              rcases List.mem_append.1 hacc with h1 | h1
              · exact Or.inl h1
              · rcases List.mem_singleton.1 h1 with rfl
                exact Or.inr ⟨it, children, rfl, Or.inr hrec⟩
    · exact Or.inr hex

/-- With a positive limit, every comment returned by
`fetchCommentsRecursive` satisfies the depth bound. -/
theorem hn_depth_bound (f : Nat → Except String Item) (m : Int) (hm : 0 < m) :
    ∀ (fuel : Nat) (ids : List Nat) (depth : Nat) (l : List Comment),
      fetchCommentsRecursive f fuel ids depth m = .ok l →
      ∀ c ∈ l, depthLeB m c = true := by
  intro fuel
  induction fuel with
  | zero =>
    intro ids depth l h c hc
    cases h
    cases hc
  | succ fuel ih =>
    intro ids depth l h c hc
    rw [fetchCommentsRecursive_succ] at h
    split at h
    · cases h
      cases hc
    · rename_i hguard
      cases hsnd : (hnFetchItemsGo f ids (List.range ids.length)).2 with
      | some e => rw [hsnd] at h; cases h
      | none =>
        rw [hsnd] at h
        cases h
        rcases processKids_mem f fuel depth m _ [] c hc with hacc | ⟨it, children, rfl, hch⟩
        · cases hacc
        · have hlt : (depth : Int) < m := by
            by_contra hcon
            push_neg at hcon
            apply hguard
            simp [hm, hcon]
          rw [depthLeB_mk]
          refine ⟨by omega, ?_⟩
          intro c2 hc2
          rcases hch with rfl | hrec
          · cases hc2
          · exact ih it.Kids (depth + 1) children hrec c2 hc2

/-- All nonpositive depth limits make `fetchCommentsRecursive` behave
identically (the limit is ignored). -/
theorem hn_nonpos_indep (f : Nat → Except String Item) (m m2 : Int)
    (hm : m ≤ 0) (hm2 : m2 ≤ 0) :
    ∀ (fuel : Nat) (ids : List Nat) (depth : Nat),
      fetchCommentsRecursive f fuel ids depth m =
        fetchCommentsRecursive f fuel ids depth m2 := by
  intro fuel
  induction fuel with
  | zero => intro ids depth; rfl
  | succ fuel ih =>
    intro ids depth
    rw [fetchCommentsRecursive_succ, fetchCommentsRecursive_succ]
    have h1 : decide (0 < m) = false := decide_eq_false (by omega)
    have h2 : decide (0 < m2) = false := decide_eq_false (by omega)
    rw [h1, h2]
    simp only [Bool.false_and]
    split
    · rfl
    · cases hsnd : (hnFetchItemsGo f ids (List.range ids.length)).2 with
      | some e => rfl
      | none =>
        have hfold : ∀ (acc : List Comment) (oit : Option Item),
            processKids f fuel depth m acc oit =
              processKids f fuel depth m2 acc oit := by
          intro acc oit
          cases oit with
          | none => rfl
          | some it =>
            rw [processKids_some, processKids_some, ih it.Kids (depth + 1)]
        rw [foldl_congr_fun hfold]

/-- Size bookkeeping for the nested Dev.to comment type. -/
theorem devtoComment_sizeOf_children (a b c u : String)
    (children : List DevtoComment) :
    sizeOf children < sizeOf (DevtoComment.mk a b c u children) := by
  simp only [DevtoComment.mk.sizeOf_spec]
  omega

/-- All nonpositive depth limits make the Dev.to comment parser behave
identically (the limit is ignored). -/
theorem devto_nonpos_indep (timeO : String → Option Int) (m m2 : Int)
    (hm : m ≤ 0) (hm2 : m2 ≤ 0) :
    ∀ (n : Nat) (dcs : List DevtoComment) (depth : Nat), sizeOf dcs ≤ n →
      devtoParseComments timeO m dcs depth =
        devtoParseComments timeO m2 dcs depth := by
  intro n
  induction n with
  | zero =>
    intro dcs depth h
    cases dcs with
    | nil => rfl
    | cons dc rest => simp at h
  | succ n ih =>
    intro dcs depth h
    cases dcs with
    | nil => rfl
    | cons dc rest =>
      have hsz : sizeOf dc + sizeOf rest ≤ n + 1 := by
        simp only [List.cons.sizeOf_spec] at h
        omega
      have hrest : sizeOf rest ≤ n := by
        have hdc : 1 ≤ sizeOf dc := by
          cases dc with
          | mk a b c u children => simp [DevtoComment.mk.sizeOf_spec]; omega
        omega
      have hpc : devtoParseComment timeO m dc depth =
          devtoParseComment timeO m2 dc depth := by
        cases dc with
        | mk a b c u children =>
          have hch : sizeOf children ≤ n := by
            have := devtoComment_sizeOf_children a b c u children
            omega
          rw [devtoParseComment, devtoParseComment]
          have g1 : decide (m ≤ 0) = true := decide_eq_true hm
          have g2 : decide (m2 ≤ 0) = true := decide_eq_true hm2
          rw [g1, g2, ih children (depth + 1) hch]
          simp only [Bool.true_or]
      rw [devtoParseComments, devtoParseComments, hpc,
        ih rest depth hrest]

/-- With a positive limit and a start depth within it, every comment
produced by the Dev.to comment parser satisfies the depth bound. -/
theorem devto_depth_bound (timeO : String → Option Int) (m : Int) (hm : 0 < m) :
    ∀ (n : Nat) (dcs : List DevtoComment) (depth : Nat), sizeOf dcs ≤ n →
      (depth : Int) ≤ m →
      ∀ c ∈ devtoParseComments timeO m dcs depth, depthLeB m c = true := by
  intro n
  induction n with
  | zero =>
    intro dcs depth h
    cases dcs with
    | nil => intro _ c hc; cases hc
    | cons dc rest => simp at h
  | succ n ih =>
    intro dcs depth h hdep c hc
    cases dcs with
    | nil => cases hc
    | cons dc rest =>
      have hsz : sizeOf dc + sizeOf rest ≤ n + 1 := by
        simp only [List.cons.sizeOf_spec] at h
        omega
      have hrest : sizeOf rest ≤ n := by
        have hdc : 1 ≤ sizeOf dc := by
          cases dc with
          | mk a b c2 u children => simp [DevtoComment.mk.sizeOf_spec]; omega
        omega
      rw [devtoParseComments] at hc
      cases hpc : devtoParseComment timeO m dc depth with
      | none =>
        rw [hpc] at hc
        exact ih rest depth hrest hdep c hc
      | some c0 =>
        rw [hpc] at hc
        rcases List.mem_cons.1 hc with rfl | hcr
        · cases dc with
          | mk a b c2 u children =>
            have hch : sizeOf children ≤ n := by
              have := devtoComment_sizeOf_children a b c2 u children
              omega
            rw [devtoParseComment] at hpc
            split at hpc
            · cases hpc
            · cases hpc
              rw [depthLeB_mk]
              refine ⟨hdep, ?_⟩
              intro c3 hc3
              split at hc3
              · rename_i hguard
                have hg0 : decide (m ≤ 0) = false := decide_eq_false (by omega)
                rw [hg0] at hguard
                simp only [Bool.false_or, Bool.and_eq_true,
                  decide_eq_true_eq] at hguard
                have hdlt : (depth : Int) < m := hguard.1
                exact ih children (depth + 1) hch (by push_cast; omega) c3 hc3
              · cases hc3
        · exact ih rest depth hrest hdep c hcr

/-- Claim C6 counterexample: the Lobsters adapter's `FetchCommentTree`
never consults `maxDepth` — a comment block nested six levels deep in the
page markup is returned at depth 5 even with `maxDepth = 2`, so a returned
comment has depth greater than the limit. -/
theorem depth_limit_ignored_counterexample :
    lobstersFetchCommentTree envZero (.ok [deepCommentElem]) exStory 2 =
        .ok [Comment.mk deepCommentItem 5 []] ∧
      depthLeB 2 (Comment.mk deepCommentItem 5 []) = false := by
  refine ⟨rfl, ?_⟩
  rw [Bool.eq_false_iff]
  intro h
  rw [depthLeB_mk] at h
  have h5 := h.1
  omega

/-- Claim C6 (corrected): for the comment-tree builders that implement the
depth limit — the numeric-ID adapter's recursion and the Dev.to nested
parser — a nonpositive `maxDepth` means the tree is expanded without depth
limit (the result is independent of which nonpositive value is passed);
with `maxDepth > 0` the numeric-ID recursion returns an empty result, not
an error, once the depth reaches the limit, and no returned comment — at
any nesting level — has depth greater than `maxDepth`, deeper replies
simply being absent; the Dev.to parser obeys the same bound.  The
HTML-scraped Lobsters adapter ignores `maxDepth` entirely (its result is
independent of its value), so its output is not depth-bounded. -/
theorem comment_depth_limit :
    (∀ (f : Nat → Except String Item) (fuel : Nat) (ids : List Nat)
       (depth : Nat) (m m2 : Int), m ≤ 0 → m2 ≤ 0 →
       fetchCommentsRecursive f fuel ids depth m =
         fetchCommentsRecursive f fuel ids depth m2)
    ∧ (∀ (f : Nat → Except String Item) (fuel : Nat) (ids : List Nat)
         (depth : Nat) (m : Int), 0 < m → m ≤ (depth : Int) →
         fetchCommentsRecursive f fuel ids depth m = .ok [])
    ∧ (∀ (f : Nat → Except String Item) (fuel : Nat) (ids : List Nat)
         (depth : Nat) (m : Int) (l : List Comment), 0 < m →
         fetchCommentsRecursive f fuel ids depth m = .ok l →
         ∀ c ∈ l, depthLeB m c = true)
    ∧ (∀ (timeO : String → Option Int) (m m2 : Int)
         (dcs : List DevtoComment) (depth : Nat), m ≤ 0 → m2 ≤ 0 →
         devtoParseComments timeO m dcs depth =
           devtoParseComments timeO m2 dcs depth)
    ∧ (∀ (timeO : String → Option Int) (m : Int) (dcs : List DevtoComment)
         (depth : Nat), 0 < m → (depth : Int) ≤ m →
         ∀ c ∈ devtoParseComments timeO m dcs depth, depthLeB m c = true)
    ∧ (∀ (env : TimeEnv) (page : Except String (List LobstersCommentElem))
         (it : Item) (m m2 : Int),
         lobstersFetchCommentTree env page it m =
           lobstersFetchCommentTree env page it m2) := by
  refine ⟨?_, ?_, ?_, ?_, ?_, fun env page it m m2 => rfl⟩
  · intro f fuel ids depth m m2 hm hm2
    exact hn_nonpos_indep f m m2 hm hm2 fuel ids depth
  · intro f fuel ids depth m hm hle
    cases fuel with
    | zero => rfl
    | succ fuel =>
      rw [fetchCommentsRecursive_succ]
      have hcond : (decide (0 < m) && decide (m ≤ (depth : Int))) = true := by
        simp [hm, hle]
      rw [hcond]
      simp
  · intro f fuel ids depth m l hm h
    exact hn_depth_bound f m hm fuel ids depth l h
  · intro timeO m m2 dcs depth hm hm2
    exact devto_nonpos_indep timeO m m2 hm hm2 (sizeOf dcs) dcs depth le_rfl
  · intro timeO m dcs depth hm hdep
    exact devto_depth_bound timeO m hm (sizeOf dcs) dcs depth le_rfl hdep

/-- Witness for C6: the six-level nested Dev.to reply fixture parsed with
`maxDepth = 2` yields no comment of depth greater than 2. -/
theorem comment_depth_limit_witness :
    (devtoParseComments timeZero 2 [devtoChain 5] 0).all
      (fun c => depthLeB 2 c) = true := by
  rw [List.all_eq_true]
  intro c hc
  exact comment_depth_limit.2.2.2.2.1 timeZero 2 [devtoChain 5] 0 (by decide)
    (by decide) c hc

end Feedme
